import Mathlib

set_option maxRecDepth 10000
set_option maxHeartbeats 1000000

/-!
Shallow embedding of the physics and collision code of the Ingushetia 2D
platformer (src/game/physics.py and src/game/collision.py), together with
theorems settling the frozen claims about it.

Modelling conventions:
* Python floats are modelled as rationals (ℚ).  `math.sqrt` is modelled by
  `ratSqrt`, the exact rational square root, which returns 0 on inputs whose
  square root is irrational; every theorem below exercises square roots only
  at points where the root is exact (axis-aligned vectors, concrete inputs)
  or where the result is multiplied by zero.
* `float('inf')` masses are modelled by the dedicated type `PMass`.
* `pygame.Rect` stores integer coordinates; constructing one from floats
  truncates toward zero, which `ratTrunc` models.
* Python object identity (`id(...)`) of colliders is modelled by the index
  of the collider in the system's `colliders` list.
-/

namespace Game

/-- A 2D vector (`Vector2D` in game/physics.py), components as ℚ. -/
structure Vec where
  x : ℚ
  y : ℚ
deriving DecidableEq, Repr

/-- Python `Vector2D.__add__`. -/
def Vec.add (a b : Vec) : Vec := ⟨a.x + b.x, a.y + b.y⟩

/-- Python `Vector2D.__sub__`. -/
def Vec.sub (a b : Vec) : Vec := ⟨a.x - b.x, a.y - b.y⟩

/-- Python `Vector2D.__mul__` (vector times scalar). -/
def Vec.smul (a : Vec) (s : ℚ) : Vec := ⟨a.x * s, a.y * s⟩

/-- Python `Vector2D.__truediv__` (vector divided by a scalar).  The Python code
raises on division by zero; Lean's total `/` returns 0 there.  All uses
below divide by positive masses or by a nonzero magnitude. -/
def Vec.divQ (a : Vec) (s : ℚ) : Vec := ⟨a.x / s, a.y / s⟩

/-- Python `Vector2D.dot`. -/
def Vec.dot (a b : Vec) : ℚ := a.x * b.x + a.y * b.y

/-- Python `Vector2D.zero`. -/
def Vec.zero : Vec := ⟨0, 0⟩

instance : Add Vec := ⟨Vec.add⟩

instance : Sub Vec := ⟨Vec.sub⟩

/-- Integer square root by the digit-pair recurrence, fuel-based so that it
is structurally recursive (kernel-reducible, unlike `Nat.sqrt`). -/
def natSqrtAux : ℕ → ℕ → ℕ
  | 0, _ => 0
  | _ + 1, 0 => 0
  | fuel + 1, n + 1 =>
    let r := natSqrtAux fuel ((n + 1) / 4) * 2
    if (r + 1) * (r + 1) ≤ n + 1 then r + 1 else r

/-- Integer square root (floor). -/
def natSqrt (n : ℕ) : ℕ := natSqrtAux n n

/-- Exact rational square root: `ratSqrt q = r` when `r * r = q` and
`0 ≤ r` have a rational solution, else 0.  Models `math.sqrt` at the
points where the root is exact (see the file header). -/
def ratSqrt (q : ℚ) : ℚ :=
  if 0 ≤ q ∧ natSqrt q.num.natAbs * natSqrt q.num.natAbs = q.num.natAbs
      ∧ natSqrt q.den * natSqrt q.den = q.den then
    (natSqrt q.num.natAbs : ℚ) / (natSqrt q.den : ℚ)
  else 0

/-- Python `Vector2D.magnitude`. -/
def Vec.magnitude (a : Vec) : ℚ := ratSqrt (a.x * a.x + a.y * a.y)

/-- Python `Vector2D.magnitude_squared`. -/
def Vec.magnitude_squared (a : Vec) : ℚ := a.x * a.x + a.y * a.y

/-- Python `Vector2D.normalize`: unit vector in the same direction, zero vector if
the magnitude is zero. -/
def Vec.normalize (a : Vec) : Vec :=
  let mag := a.magnitude
  if mag = 0 then Vec.zero else ⟨a.x / mag, a.y / mag⟩

/-- A Python float mass: either `float('inf')` or a finite rational. -/
inductive PMass where
  | inf
  | fin (m : ℚ)
deriving DecidableEq, Repr

/-- A vector divided by a mass (`Vector2D.__truediv__` with a mass as the
scalar): a finite vector divided by `float('inf')` is the zero vector. -/
def Vec.divMass (a : Vec) : PMass → Vec
  | PMass.inf => Vec.zero
  | PMass.fin m => a.divQ m

/-- Python `int(q)` on a float: truncation toward zero.  `q.num.tdiv q.den`
truncates since `q.den > 0` and `num/den` is the reduced fraction. -/
def ratTrunc (q : ℚ) : ℤ := q.num.tdiv q.den

/-- Python `pygame.Rect`: integer left/top/width/height. -/
structure Rect where
  left : ℤ
  top : ℤ
  w : ℤ
  h : ℤ
deriving DecidableEq, Repr

/-- Python `Rect.right = left + width`. -/
def Rect.right (r : Rect) : ℤ := r.left + r.w

/-- Python `Rect.bottom = top + height`. -/
def Rect.bottom (r : Rect) : ℤ := r.top + r.h

/-- Python `Rect.centerx = left + width // 2` (width is nonnegative in every use,
so all integer-division conventions agree). -/
def Rect.centerx (r : Rect) : ℤ := r.left + r.w / 2

/-- Python `Rect.centery = top + height // 2`. -/
def Rect.centery (r : Rect) : ℤ := r.top + r.h / 2

/-- Python `pygame.Rect.colliderect`: strict overlap on both axes (touching edges
do not collide, zero-sized rects never collide). -/
def Rect.colliderect (a b : Rect) : Bool :=
  decide (a.left < b.right ∧ a.top < b.bottom ∧ a.right > b.left ∧ a.bottom > b.top)

/-- Python `pygame.Rect.collidepoint`: half-open containment (right/bottom edges
excluded). -/
def Rect.collidepoint (r : Rect) (px py : ℤ) : Bool :=
  decide (r.left ≤ px ∧ px < r.right ∧ r.top ≤ py ∧ py < r.bottom)

/-- Python `PhysicsBody` (game/physics.py), with its dataclass defaults. -/
structure PhysicsBody where
  position : Vec
  velocity : Vec
  acceleration : Vec
  mass : PMass := PMass.fin 1
  friction : ℚ := 4 / 5
  restitution : ℚ := 0
  drag : ℚ := 1 / 100
  gravity_scale : ℚ := 1
  is_static : Bool := false
deriving DecidableEq, Repr

/-- Python `PhysicsBody.apply_force`: `acceleration += force / mass`. -/
def PhysicsBody.apply_force (b : PhysicsBody) (force : Vec) : PhysicsBody :=
  { b with acceleration := b.acceleration + force.divMass b.mass }

/-- The gravity force term `gravity * gravity_scale * mass` fed to
`apply_force` inside `PhysicsBody.integrate`.  For an infinite mass the
Python expression is `inf / inf = NaN`, which has no rational counterpart;
the game never reaches that case (static bodies are created with
`gravity_scale=0.0`, see platform.py line 47), it is modelled as a no-op
here, and no theorem below exercises an infinite-mass body whose
`gravity_scale` is positive. -/
def PhysicsBody.applyGravityIntegrate (b : PhysicsBody) (gravity : Vec) : PhysicsBody :=
  match b.mass with
  | PMass.fin m => b.apply_force ((gravity.smul b.gravity_scale).smul m)
  | PMass.inf => b

/-- Python `PhysicsBody.integrate(delta_time, gravity)`: gravity (only when
`gravity_scale > 0`), then drag, then the position/velocity update, then
the acceleration reset. -/
def PhysicsBody.integrate (b : PhysicsBody) (delta_time : ℚ) (gravity : Vec) : PhysicsBody :=
  let b := if b.gravity_scale > 0 then b.applyGravityIntegrate gravity else b
  let b := b.apply_force (b.velocity.smul (-b.drag * b.velocity.magnitude))
  { b with
    position := b.position + b.velocity.smul delta_time
      + b.acceleration.smul (1 / 2 * delta_time * delta_time)
    velocity := b.velocity + b.acceleration.smul delta_time
    acceleration := Vec.zero }

/-- Python `PhysicsBody.get_bounds(size)`: a `pygame.Rect` centred on the
position; the float arguments are truncated toward zero by `Rect`. -/
def PhysicsBody.get_bounds (b : PhysicsBody) (size : Vec) : Rect :=
  { left := ratTrunc (b.position.x - size.x / 2)
    top := ratTrunc (b.position.y - size.y / 2)
    w := ratTrunc size.x
    h := ratTrunc size.y }

/-- Python `CollisionData` (game/physics.py).  The `other_body` field — a reference
to the second physics body that nothing in the detection/resolution paths
ever reads — is not modelled. -/
structure CollisionData where
  collision_point : Vec
  collision_normal : Vec
  penetration_depth : ℚ
  collision_side : String
deriving DecidableEq, Repr

/-- Python `CollisionData.__post_init__`: the constructor re-normalizes the
collision normal whenever its magnitude is positive. -/
def mkCollisionData (point normal : Vec) (depth : ℚ) (side : String) : CollisionData :=
  { collision_point := point
    collision_normal := if normal.magnitude > 0 then normal.normalize else normal
    penetration_depth := depth
    collision_side := side }

/-- Python `PhysicsUtils.aabb_collision_data(rect1, rect2, body1, body2)`.  The two
body arguments only populate the unread `other_body` field and are dropped. -/
def PhysicsUtils.aabb_collision_data (rect1 rect2 : Rect) : Option CollisionData :=
  if rect1.colliderect rect2 then
    let overlap_x : ℤ := min rect1.right rect2.right - max rect1.left rect2.left
    let overlap_y : ℤ := min rect1.bottom rect2.bottom - max rect1.top rect2.top
    if overlap_x < overlap_y then
      if rect1.centerx < rect2.centerx then
        some (mkCollisionData ⟨(rect1.right : ℚ), (rect1.centery : ℚ)⟩ ⟨-1, 0⟩
          (overlap_x : ℚ) "right")
      else
        some (mkCollisionData ⟨(rect1.left : ℚ), (rect1.centery : ℚ)⟩ ⟨1, 0⟩
          (overlap_x : ℚ) "left")
    else
      if rect1.centery < rect2.centery then
        some (mkCollisionData ⟨(rect1.centerx : ℚ), (rect1.bottom : ℚ)⟩ ⟨0, -1⟩
          (overlap_y : ℚ) "bottom")
      else
        some (mkCollisionData ⟨(rect1.centerx : ℚ), (rect1.top : ℚ)⟩ ⟨0, 1⟩
          (overlap_y : ℚ) "top")
  else none

/-- Lines 326–342 of `PhysicsUtils.resolve_collision`: positional
separation.  The `inf, inf` pattern is unreachable from
`PhysicsUtils.resolve_collision`, which returns before separating when both
masses are infinite; the first pattern covers it the way the Python `if
body1.mass == float('inf')` branch would. -/
def PhysicsUtils.separateBodies (body1 body2 : PhysicsBody) (collision : CollisionData) :
    PhysicsBody × PhysicsBody :=
  let separation := collision.collision_normal.smul collision.penetration_depth
  match body1.mass with
  | PMass.inf => (body1, { body2 with position := body2.position - separation })
  | PMass.fin m1 =>
    match body2.mass with
    | PMass.inf => ({ body1 with position := body1.position + separation }, body2)
    | PMass.fin m2 =>
      let total_mass := m1 + m2
      ({ body1 with position := body1.position + separation.smul (m2 / total_mass) },
       { body2 with position := body2.position + separation.smul (-m1 / total_mass) })

/-- Lines 352–384 of `PhysicsUtils.resolve_collision`: the impulse and the
friction impulse, applied to the already-separated bodies.
`relative_velocity` and `velocity_along_normal` are the values computed by
the caller before this block.  In the `inf, inf` case none of the Python
`if/elif` impulse branches fires and the friction guard is false (the case
is unreachable anyway: both-infinite pairs return at the top of
`resolve_collision`). -/
def PhysicsUtils.applyImpulseAndFriction (body1 body2 : PhysicsBody)
    (collision : CollisionData) (relative_velocity : Vec) (velocity_along_normal : ℚ) :
    PhysicsBody × PhysicsBody :=
  let restitution := min body1.restitution body2.restitution
  let j0 := -(1 + restitution) * velocity_along_normal
  let step : PhysicsBody × PhysicsBody × ℚ :=
    match body1.mass, body2.mass with
    | PMass.inf, PMass.fin _ =>
      (body1,
       { body2 with velocity := body2.velocity - collision.collision_normal.smul j0 }, j0)
    | PMass.fin _, PMass.inf =>
      ({ body1 with velocity := body1.velocity + collision.collision_normal.smul j0 },
       body2, j0)
    | PMass.fin m1, PMass.fin m2 =>
      let j := j0 / (1 / m1 + 1 / m2)
      let impulse := collision.collision_normal.smul j
      ({ body1 with velocity := body1.velocity + impulse.divQ m1 },
       { body2 with velocity := body2.velocity - impulse.divQ m2 }, j)
    | PMass.inf, PMass.inf => (body1, body2, j0)
  let b1 := step.1
  let b2 := step.2.1
  let j := step.2.2
  if b1.mass ≠ PMass.inf ∨ b2.mass ≠ PMass.inf then
    let tangent := relative_velocity - collision.collision_normal.smul velocity_along_normal
    if tangent.magnitude > 1 / 100 then
      let t := tangent.normalize
      let friction_impulse := ((t.smul j).smul (min b1.friction b2.friction)).smul (1 / 10)
      (match b1.mass with
       | PMass.fin m1 => { b1 with velocity := b1.velocity - friction_impulse.divQ m1 }
       | PMass.inf => b1,
       match b2.mass with
       | PMass.fin m2 => { b2 with velocity := b2.velocity + friction_impulse.divQ m2 }
       | PMass.inf => b2)
    else (b1, b2)
  else (b1, b2)

/-- Python `PhysicsUtils.resolve_collision(body1, body2, collision)`: early return
when both masses are infinite; positional separation; early return when the
relative velocity along the normal is separating; impulse and friction. -/
def PhysicsUtils.resolve_collision (body1 body2 : PhysicsBody)
    (collision : CollisionData) : PhysicsBody × PhysicsBody :=
  if body1.mass = PMass.inf ∧ body2.mass = PMass.inf then (body1, body2)
  else
    let p := PhysicsUtils.separateBodies body1 body2 collision
    let relative_velocity := p.1.velocity - p.2.velocity
    let velocity_along_normal := relative_velocity.dot collision.collision_normal
    if velocity_along_normal > 0 then p
    else PhysicsUtils.applyImpulseAndFriction p.1 p.2 collision
      relative_velocity velocity_along_normal

/-- The `CollisionLayer` constants (game/collision.py). -/
def CollisionLayer.PLAYER : ℤ := 1

def CollisionLayer.PLATFORM : ℤ := 2

def CollisionLayer.ENEMY : ℤ := 4

def CollisionLayer.PICKUP : ℤ := 8

def CollisionLayer.TRIGGER : ℤ := 16

/-- The `collision_matrix` dict of `CollisionLayer.can_collide`;
`collision_matrix.get(layer1, [])` returns `[]` for unlisted keys. -/
def CollisionLayer.matrixLookup (layer1 : ℤ) : List ℤ :=
  if layer1 = CollisionLayer.PLAYER then
    [CollisionLayer.PLATFORM, CollisionLayer.ENEMY, CollisionLayer.PICKUP,
     CollisionLayer.TRIGGER]
  else if layer1 = CollisionLayer.PLATFORM then
    [CollisionLayer.PLAYER, CollisionLayer.ENEMY]
  else if layer1 = CollisionLayer.ENEMY then
    [CollisionLayer.PLAYER, CollisionLayer.PLATFORM]
  else if layer1 = CollisionLayer.PICKUP then [CollisionLayer.PLAYER]
  else if layer1 = CollisionLayer.TRIGGER then [CollisionLayer.PLAYER]
  else []

/-- Python `CollisionLayer.can_collide(layer1, layer2)`:
`layer2 in collision_matrix.get(layer1, [])`. -/
def CollisionLayer.can_collide (layer1 layer2 : ℤ) : Bool :=
  decide (layer2 ∈ CollisionLayer.matrixLookup layer1)

/-- Python `Collider` (game/collision.py).  The three callback slots are modelled
by the event stream that `CollisionSystem.update` returns instead; the
`current_collisions` set of Python object ids is a `Finset` of collider
indices (see the file header). -/
structure Collider where
  physics_body : PhysicsBody
  size : Vec
  layer : ℤ := CollisionLayer.PLATFORM
  is_trigger : Bool := false
  enabled : Bool := true
  current_collisions : Finset ℕ := ∅
deriving DecidableEq

/-- Python `Collider.get_bounds`. -/
def Collider.get_bounds (c : Collider) : Rect := c.physics_body.get_bounds c.size

/-- A collision event as dispatched by
`CollisionSystem._handle_collision_events`: the first index is the collider
whose callback fires, the second the `other_collider`. -/
inductive CollisionEvent where
  | enter (self other : ℕ)
  | stay (self other : ℕ)
deriving DecidableEq, Repr

/-- Python `CollisionSystem` (game/collision.py).  The spatial grid dict maps a
cell to the list of indices of the colliders appended to that cell. -/
structure CollisionSystem where
  colliders : List Collider
  gravity : Vec := ⟨0, 980⟩
  grid_size : ℤ := 100
  spatial_grid : ℤ × ℤ → List ℕ := fun _ => []

/-- The inclusive integer range `[lo, hi]` (`range(lo, hi + 1)`). -/
def intRangeIncl (lo hi : ℤ) : List ℤ :=
  (List.range (hi + 1 - lo).toNat).map fun k => lo + (k : ℤ)

/-- The grid cells a bounds rect overlaps, as iterated by the nested
`for x in range(min_x, max_x + 1): for y in range(min_y, max_y + 1)` loops;
`//` on the integer rect coordinates is floor division, which is `/` on ℤ
for the positive `grid_size`. -/
def gridCells (bounds : Rect) (grid_size : ℤ) : List (ℤ × ℤ) :=
  (intRangeIncl (bounds.left / grid_size) (bounds.right / grid_size)).flatMap fun x =>
    (intRangeIncl (bounds.top / grid_size) (bounds.bottom / grid_size)).map fun y => (x, y)

/-- Python `CollisionSystem._update_spatial_grid`: clear the grid, then append
every enabled collider to each cell its bounds overlap. -/
def CollisionSystem.update_spatial_grid (sys : CollisionSystem) : ℤ × ℤ → List ℕ :=
  (List.range sys.colliders.length).foldl
    (fun grid i =>
      match sys.colliders.get? i with
      | none => grid
      | some c =>
        if c.enabled then
          let cells := gridCells c.get_bounds sys.grid_size
          fun key => if key ∈ cells then grid key ++ [i] else grid key
        else grid)
    fun _ => []

/-- Python `CollisionSystem._get_potential_collisions(collider)`: every other
enabled collider registered in some grid cell that the collider's bounds
overlap.  Python iterates the resulting `set` in unspecified order; the
model fixes ascending index order, and no theorem below depends on the
order. -/
def CollisionSystem.get_potential_collisions (sys : CollisionSystem) (i : ℕ) : List ℕ :=
  match sys.colliders.get? i with
  | none => []
  | some c =>
    let cells := gridCells c.get_bounds sys.grid_size
    (List.range sys.colliders.length).filter fun j =>
      decide (j ≠ i) &&
      (match sys.colliders.get? j with
       | some cj => cj.enabled
       | none => false) &&
      cells.any fun key => (sys.spatial_grid key).contains j

/-- Python `CollisionSystem.check_collision(collider1, collider2)`: `None` unless
both are enabled and the layers may collide; otherwise the AABB narrow
phase. -/
def CollisionSystem.check_collision (collider1 collider2 : Collider) :
    Option CollisionData :=
  if ¬(collider1.enabled = true ∧ collider2.enabled = true) then none
  else if ¬CollisionLayer.can_collide collider1.layer collider2.layer then none
  else PhysicsUtils.aabb_collision_data collider1.get_bounds collider2.get_bounds

/-- Python `CollisionSystem.resolve_collision(collider1, collider2, collision)`:
skip triggers, clamp the penetration depth to 50 pixels, then resolve the
two physics bodies.  Returns the updated bodies. -/
def CollisionSystem.resolve_collision (collider1 collider2 : Collider)
    (collision : CollisionData) : PhysicsBody × PhysicsBody :=
  if collider1.is_trigger || collider2.is_trigger then
    (collider1.physics_body, collider2.physics_body)
  else
    let collision :=
      if collision.penetration_depth > 50 then
        { collision with penetration_depth := 50 }
      else collision
    PhysicsUtils.resolve_collision collider1.physics_body collider2.physics_body collision

/-- Python `CollisionSystem._handle_collision_events(collider, other_collider,
collision)` for the collider at index `i` against the one at index `j`:
record `j` and fire `enter` when it is new, else fire `stay`.  Returns the
updated collider list and the event. -/
def handle_collision_events (cs : List Collider) (i j : ℕ) :
    List Collider × CollisionEvent :=
  match cs.get? i with
  | none => (cs, CollisionEvent.stay i j)
  | some c =>
    if j ∈ c.current_collisions then (cs, CollisionEvent.stay i j)
    else
      (cs.set i { c with current_collisions := insert j c.current_collisions },
       CollisionEvent.enter i j)

/-- The gravity pass of `CollisionSystem.update` (lines 208–211):
`apply_force(gravity * mass * gravity_scale)` for enabled colliders with
positive `gravity_scale`.  As in `applyGravityIntegrate`, the
infinite-mass case (Python `inf / inf = NaN`, unreachable in the game) is
a no-op. -/
def applyGravityPhase (gravity : Vec) (c : Collider) : Collider :=
  if c.enabled && decide (c.physics_body.gravity_scale > 0) then
    match c.physics_body.mass with
    | PMass.fin m =>
      { c with physics_body :=
          c.physics_body.apply_force ((gravity.smul m).smul c.physics_body.gravity_scale) }
    | PMass.inf => c
  else c

/-- The integration pass of `CollisionSystem.update` (lines 213–216). -/
def integratePhase (delta_time : ℚ) (gravity : Vec) (c : Collider) : Collider :=
  if c.enabled then
    { c with physics_body := c.physics_body.integrate delta_time gravity }
  else c

/-- The detection pass of `CollisionSystem.update` (lines 218–234): for
each enabled collider, candidate neighbours from the spatial grid, the
`id(collider) >= id(other_collider)` duplicate-pair skip (object identity
modelled by list index), and the narrow phase. -/
def CollisionSystem.detectPairs (sys : CollisionSystem) :
    List (ℕ × ℕ × CollisionData) :=
  (List.range sys.colliders.length).flatMap fun i =>
    match sys.colliders.get? i with
    | none => []
    | some ci =>
      if ci.enabled then
        (sys.get_potential_collisions i).filterMap fun j =>
          if j ≤ i then none
          else
            match sys.colliders.get? j with
            | none => none
            | some cj =>
              (CollisionSystem.check_collision ci cj).map fun col => (i, j, col)
      else []

/-- One step of the resolution loop of `CollisionSystem.update` (lines
236–242): resolve the pair, then handle the collision events for both
orientations. -/
def resolveStep (acc : List Collider × List CollisionEvent)
    (p : ℕ × ℕ × CollisionData) : List Collider × List CollisionEvent :=
  match acc.1.get? p.1, acc.1.get? p.2.1 with
  | some ci, some cj =>
    let bodies := CollisionSystem.resolve_collision ci cj p.2.2
    let cs := (acc.1.set p.1 { ci with physics_body := bodies.1 }).set p.2.1
      { cj with physics_body := bodies.2 }
    let r1 := handle_collision_events cs p.1 p.2.1
    let r2 := handle_collision_events r1.1 p.2.1 p.1
    (r2.1, acc.2 ++ [r1.2, r2.2])
  | _, _ => acc

/-- Python `CollisionSystem.update(delta_time)`: rebuild the spatial grid, apply
gravity, integrate, detect candidate pairs from the grid, then resolve
each pair and dispatch its events.  Returns the new system state and the
events fired. -/
def CollisionSystem.update (sys : CollisionSystem) (delta_time : ℚ) :
    CollisionSystem × List CollisionEvent :=
  let sys1 := { sys with spatial_grid := sys.update_spatial_grid }
  let sys2 := { sys1 with colliders := sys1.colliders.map (applyGravityPhase sys1.gravity) }
  let sys3 := { sys2 with
    colliders := sys2.colliders.map (integratePhase delta_time sys2.gravity) }
  let pairs := sys3.detectPairs
  let r := pairs.foldl resolveStep (sys3.colliders, [])
  ({ sys3 with colliders := r.1 }, r.2)

/-- Python `CollisionSystem.raycast(start, direction, max_distance, layer_mask)`:
march in 5-pixel steps; at each step return the first enabled collider
(list order) passing the layer mask whose bounds contain the integer-cast
sample point.  Returns the collider's index, the hit point and the
distance. -/
def CollisionSystem.raycast (sys : CollisionSystem) (start direction : Vec)
    (max_distance : ℚ) (layer_mask : Option ℤ := none) : Option (ℕ × Vec × ℚ) :=
  let step_size : ℚ := 5
  let steps := (ratTrunc (max_distance / step_size)).toNat
  (List.range steps).findSome? fun i =>
    let current_pos := start + direction.smul ((i : ℚ) * step_size)
    (List.range sys.colliders.length).findSome? fun ci =>
      match sys.colliders.get? ci with
      | none => none
      | some c =>
        if ¬c.enabled then none
        else if (match layer_mask with
                 | some mask => decide (Int.land c.layer mask = 0)
                 | none => false) then none
        else if c.get_bounds.collidepoint (ratTrunc current_pos.x) (ratTrunc current_pos.y)
        then some (ci, current_pos, (i : ℚ) * step_size)
        else none

/-! ### Concrete scenarios used by the claims -/

/-- A static platform body centred at (200, 200), configured the way
platform.py builds static bodies (infinite mass, `gravity_scale = 0`). -/
def platformBody : PhysicsBody :=
  { position := ⟨200, 200⟩
    velocity := ⟨0, 0⟩
    acceleration := ⟨0, 0⟩
    mass := PMass.inf
    gravity_scale := 0
    is_static := true }

/-- The claim C9 collider: centred (200, 200), size (100, 50). -/
def platformCollider : Collider :=
  { physics_body := platformBody
    size := ⟨100, 50⟩
    layer := CollisionLayer.PLATFORM }

/-- The claim C9 system: the single static collider. -/
def raySystem : CollisionSystem := { colliders := [platformCollider] }

/-- A 10×100 player collider whose bounds are `Rect(0, 0, 10, 100)`
(centre x = 5). -/
def tallCollider : Collider :=
  { physics_body := { position := ⟨5, 50⟩, velocity := ⟨0, 0⟩, acceleration := ⟨0, 0⟩ }
    size := ⟨10, 100⟩
    layer := CollisionLayer.PLAYER }

/-- A 6×100 platform collider whose bounds are `Rect(2, 50, 6, 100)` —
the same centre x = 5 as `tallCollider`, with the horizontal overlap (6)
smaller than the vertical one (50). -/
def nestedCollider : Collider :=
  { physics_body := { position := ⟨5, 100⟩, velocity := ⟨0, 0⟩, acceleration := ⟨0, 0⟩ }
    size := ⟨6, 100⟩
    layer := CollisionLayer.PLATFORM }

/-- A fast body: one tick of integration moves it from x = 50 to x = 250,
two grid cells away (`gravity_scale = 0` and `drag = 0` keep the motion
exact). -/
def runnerBody : PhysicsBody :=
  { position := ⟨50, 50⟩
    velocity := ⟨200, 0⟩
    acceleration := ⟨0, 0⟩
    mass := PMass.fin 1
    drag := 0
    gravity_scale := 0 }

/-- The claim C1 collider for `runnerBody`. -/
def runnerCollider : Collider :=
  { physics_body := runnerBody
    size := ⟨20, 20⟩
    layer := CollisionLayer.PLAYER }

/-- The claim C1 system: the single fast collider. -/
def runnerSystem : CollisionSystem := { colliders := [runnerCollider] }

/-- An infinite-mass body with nonzero velocity (1, 0). -/
def driftBody : PhysicsBody :=
  { position := ⟨0, 0⟩
    velocity := ⟨1, 0⟩
    acceleration := ⟨0, 0⟩
    mass := PMass.inf
    gravity_scale := 0 }

/-- An infinite-mass body at rest at (10, 0). -/
def restBody : PhysicsBody :=
  { position := ⟨10, 0⟩
    velocity := ⟨0, 0⟩
    acceleration := ⟨0, 0⟩
    mass := PMass.inf
    gravity_scale := 0 }

/-- The 50×50 player-layer collider for `driftBody`. -/
def driftCollider : Collider :=
  { physics_body := driftBody, size := ⟨50, 50⟩, layer := CollisionLayer.PLAYER }

/-- The 50×50 platform-layer collider for `restBody`. -/
def restCollider : Collider :=
  { physics_body := restBody, size := ⟨50, 50⟩, layer := CollisionLayer.PLATFORM }

/-- The claim C6 counterexample system: two overlapping infinite-mass
50×50 colliders on mutually colliding layers, one of them moving. -/
def driftSystem : CollisionSystem :=
  { colliders := [driftCollider, restCollider] }

/-- One simulation tick of `driftSystem` with `dt = 1`. -/
def driftStep (s : CollisionSystem) : CollisionSystem := (s.update 1).1

/-- A body with `gravity_scale = 0`, the default `drag = 1/100`, and
vertical velocity 100. -/
def dragBody : PhysicsBody :=
  { position := ⟨0, 0⟩
    velocity := ⟨0, 100⟩
    acceleration := ⟨0, 0⟩
    mass := PMass.fin 1
    drag := 1 / 100
    gravity_scale := 0 }

/-- A physically meaningful mass: positive when finite.  The game never
constructs non-positive masses. -/
def massPositive : PMass → Prop
  | PMass.inf => True
  | PMass.fin m => 0 < m

/-- A coasting body: no drag, no gravity response, velocity (3, 7). -/
def coastBody : PhysicsBody :=
  { position := ⟨0, 0⟩
    velocity := ⟨3, 7⟩
    acceleration := ⟨0, 0⟩
    drag := 0
    gravity_scale := 0 }

/-- The pairs listed in the `collision_matrix` adjacency table of
`CollisionLayer.can_collide`. -/
def allowedLayerPairs : List (ℤ × ℤ) :=
  [(1, 2), (1, 4), (1, 8), (1, 16), (2, 1), (2, 4), (4, 1), (4, 2), (8, 1), (16, 1)]

/-- A 10×10 player collider with bounds `Rect(-5, -5, 10, 10)`. -/
def offsetColliderA : Collider :=
  { physics_body := { position := ⟨0, 0⟩, velocity := ⟨0, 0⟩, acceleration := ⟨0, 0⟩ }
    size := ⟨10, 10⟩
    layer := CollisionLayer.PLAYER }

/-- A 10×10 platform collider with bounds `Rect(-1, -2, 10, 10)`, centres
differing from `offsetColliderA` on both axes. -/
def offsetColliderB : Collider :=
  { physics_body := { position := ⟨4, 3⟩, velocity := ⟨0, 0⟩, acceleration := ⟨0, 0⟩ }
    size := ⟨10, 10⟩
    layer := CollisionLayer.PLATFORM }

/-- The physics body and the enabled flag of a collider, the data tracked
through the resolution loop. -/
def bodyEn (c : Collider) : PhysicsBody × Bool := (c.physics_body, c.enabled)

/-- What one tick does to the body of a free-floating collider (no
acceleration): position advances by `velocity * dt`. -/
def freeStep (dt : ℚ) (b : PhysicsBody) : PhysicsBody :=
  { b with position := b.position + b.velocity.smul dt }

/-- Python `driftBody` after `n` ticks: position (n, 0), all else untouched. -/
def driftAfter (n : ℕ) : PhysicsBody := { driftBody with position := ⟨(n : ℚ), 0⟩ }

/-- A body configured as static geometry is made: infinite mass, at rest,
no acceleration, no gravity response. -/
def StaticBody (b : PhysicsBody) : Prop :=
  b.mass = PMass.inf ∧ b.velocity = Vec.zero ∧ b.acceleration = Vec.zero ∧
  b.gravity_scale = 0

instance (b : PhysicsBody) : Decidable (StaticBody b) :=
  inferInstanceAs (Decidable (b.mass = PMass.inf ∧ b.velocity = Vec.zero ∧
    b.acceleration = Vec.zero ∧ b.gravity_scale = 0))

/-- Two overlapping static platform colliders, both fully at rest. -/
def stackSystem : CollisionSystem :=
  { colliders :=
      [restCollider,
       { physics_body := restBody, size := ⟨50, 50⟩, layer := CollisionLayer.PLAYER }] }

/-- A platform collider that already records identity 5 as touching. -/
def markedCollider : Collider :=
  { physics_body := restBody
    size := ⟨50, 50⟩
    layer := CollisionLayer.PLATFORM
    current_collisions := {5} }

/-- The single-collider system for the C10 witness. -/
def markedSystem : CollisionSystem := { colliders := [markedCollider] }

/-! ### Helper lemmas -/

theorem Vec.extEq {a b : Vec} (hx : a.x = b.x) (hy : a.y = b.y) : a = b := by
  cases a; cases b; simp_all

theorem Vec.add_def (a b : Vec) : a + b = ⟨a.x + b.x, a.y + b.y⟩ := rfl

theorem Vec.sub_def (a b : Vec) : a - b = ⟨a.x - b.x, a.y - b.y⟩ := rfl

/-- The separation phase never touches velocities. -/
theorem separateBodies_velocity (b1 b2 : PhysicsBody) (col : CollisionData) :
    (PhysicsUtils.separateBodies b1 b2 col).1.velocity = b1.velocity ∧
    (PhysicsUtils.separateBodies b1 b2 col).2.velocity = b2.velocity := by
  unfold PhysicsUtils.separateBodies
  rcases h1 : b1.mass with _ | m1 <;> rcases h2 : b2.mass with _ | m2 <;> simp [h1, h2]

/-- The separation phase never touches masses. -/
theorem separateBodies_mass (b1 b2 : PhysicsBody) (col : CollisionData) :
    (PhysicsUtils.separateBodies b1 b2 col).1.mass = b1.mass ∧
    (PhysicsUtils.separateBodies b1 b2 col).2.mass = b2.mass := by
  unfold PhysicsUtils.separateBodies
  rcases h1 : b1.mass with _ | m1 <;> rcases h2 : b2.mass with _ | m2 <;> simp [h1, h2]

/-- The impulse/friction phase never touches positions. -/
theorem applyImpulseAndFriction_position (b1 b2 : PhysicsBody) (col : CollisionData)
    (rv : Vec) (van : ℚ) :
    (PhysicsUtils.applyImpulseAndFriction b1 b2 col rv van).1.position = b1.position ∧
    (PhysicsUtils.applyImpulseAndFriction b1 b2 col rv van).2.position = b2.position := by
  unfold PhysicsUtils.applyImpulseAndFriction
  rcases h1 : b1.mass with _ | m1 <;> rcases h2 : b2.mass with _ | m2 <;>
    simp [h1, h2] <;> split_ifs <;> simp

/-- The impulse/friction phase never touches the velocity of an
infinite-mass first body. -/
theorem applyImpulseAndFriction_velocity_inf1 (b1 b2 : PhysicsBody) (col : CollisionData)
    (rv : Vec) (van : ℚ) (h : b1.mass = PMass.inf) :
    (PhysicsUtils.applyImpulseAndFriction b1 b2 col rv van).1.velocity = b1.velocity := by
  unfold PhysicsUtils.applyImpulseAndFriction
  rcases h2 : b2.mass with _ | m2 <;> simp [h, h2] <;> split_ifs <;> simp

/-- The impulse/friction phase never touches the velocity of an
infinite-mass second body. -/
theorem applyImpulseAndFriction_velocity_inf2 (b1 b2 : PhysicsBody) (col : CollisionData)
    (rv : Vec) (van : ℚ) (h : b2.mass = PMass.inf) :
    (PhysicsUtils.applyImpulseAndFriction b1 b2 col rv van).2.velocity = b2.velocity := by
  unfold PhysicsUtils.applyImpulseAndFriction
  rcases h1 : b1.mass with _ | m1 <;> simp [h, h1] <;> split_ifs <;> simp

/-- Python `PhysicsUtils.resolve_collision` with two infinite masses is an early
no-op. -/
theorem resolve_collision_both_inf (b1 b2 : PhysicsBody) (col : CollisionData)
    (h1 : b1.mass = PMass.inf) (h2 : b2.mass = PMass.inf) :
    PhysicsUtils.resolve_collision b1 b2 col = (b1, b2) := by
  unfold PhysicsUtils.resolve_collision
  rw [if_pos ⟨h1, h2⟩]

/-- Unless both masses are infinite, the positions produced by
`PhysicsUtils.resolve_collision` are exactly those of the separation
phase. -/
theorem resolve_collision_position (b1 b2 : PhysicsBody) (col : CollisionData)
    (h : ¬(b1.mass = PMass.inf ∧ b2.mass = PMass.inf)) :
    (PhysicsUtils.resolve_collision b1 b2 col).1.position =
      (PhysicsUtils.separateBodies b1 b2 col).1.position ∧
    (PhysicsUtils.resolve_collision b1 b2 col).2.position =
      (PhysicsUtils.separateBodies b1 b2 col).2.position := by
  unfold PhysicsUtils.resolve_collision
  rw [if_neg h]
  dsimp only
  split_ifs with hv
  · exact ⟨rfl, rfl⟩
  · exact ⟨(applyImpulseAndFriction_position _ _ _ _ _).1,
      (applyImpulseAndFriction_position _ _ _ _ _).2⟩

/-- The separation phase when the first mass is infinite: only the second
body is displaced, by the full separation vector. -/
theorem separateBodies_inf1 (b1 b2 : PhysicsBody) (col : CollisionData)
    (h1 : b1.mass = PMass.inf) :
    PhysicsUtils.separateBodies b1 b2 col =
      (b1, { b2 with position :=
        b2.position - col.collision_normal.smul col.penetration_depth }) := by
  unfold PhysicsUtils.separateBodies
  simp [h1]

/-- The separation phase when only the second mass is infinite. -/
theorem separateBodies_inf2 (b1 b2 : PhysicsBody) (col : CollisionData) (m1 : ℚ)
    (h1 : b1.mass = PMass.fin m1) (h2 : b2.mass = PMass.inf) :
    PhysicsUtils.separateBodies b1 b2 col =
      ({ b1 with position :=
        b1.position + col.collision_normal.smul col.penetration_depth }, b2) := by
  unfold PhysicsUtils.separateBodies
  simp [h1, h2]

/-- The separation phase when both masses are finite: the mass-weighted
split. -/
theorem separateBodies_fin (b1 b2 : PhysicsBody) (col : CollisionData) (m1 m2 : ℚ)
    (h1 : b1.mass = PMass.fin m1) (h2 : b2.mass = PMass.fin m2) :
    PhysicsUtils.separateBodies b1 b2 col =
      ({ b1 with position := b1.position +
          (col.collision_normal.smul col.penetration_depth).smul (m2 / (m1 + m2)) },
       { b2 with position := b2.position +
          (col.collision_normal.smul col.penetration_depth).smul (-m1 / (m1 + m2)) }) := by
  unfold PhysicsUtils.separateBodies
  simp [h1, h2]

/-! ### Claims -/

/-- Claim C9: `raycast` marches from the start point in 5-unit steps and
returns the first collider whose bounds contain a sample point: against the
single enabled static collider centred at (200, 200) with size (100, 50),
the ray from (50, 200) in direction (1, 0) with max distance 300 hits at
x = 150 (the left edge of the bounds), at positive distance 100, returning
that collider's identity (index 0); the same ray at y = 50 misses. -/
theorem C9_raycast_stepped_march :
    raySystem.raycast ⟨50, 200⟩ ⟨1, 0⟩ 300 none = some (0, ⟨150, 200⟩, 100) ∧
    raySystem.raycast ⟨50, 50⟩ ⟨1, 0⟩ 300 none = none :=
  of_decide_eq_true (by with_unfolding_all rfl)

/-- Claim C1, counterexample: the claim says the spatial grid is cleared and
rebuilt only after gravity and integration, so that candidate pairs come
from a grid of post-integration bounding boxes — i.e. the grid held by the
post-update state would equal a fresh rebuild from the post-update
colliders.  In `runnerSystem` the single collider integrates from x = 50
(grid cell (0, 0)) to x = 250 (grid cell (2, 0)) and no pair exists, yet
after `update` the stored grid — the one candidate pairs were generated
from — still lists the collider in cell (0, 0), where a rebuild from the
integrated colliders would not. -/
theorem C1_counterexample_grid_is_stale :
    (runnerSystem.update 1).1.spatial_grid (0, 0) ≠
      CollisionSystem.update_spatial_grid (runnerSystem.update 1).1 (0, 0) :=
  of_decide_eq_true (by with_unfolding_all rfl)

/-- Claim C1, amended: in `CollisionSystem.update` the spatial grid is
cleared and rebuilt from the colliders' bounding boxes *at entry* — before
gravity is applied and before any body is integrated — and that
pre-integration grid (still stored in the returned state) is the one
candidate pairs are generated from. -/
theorem C1_amended_grid_rebuilt_before_integration
    (sys : CollisionSystem) (delta_time : ℚ) :
    ((sys.update delta_time).1).spatial_grid = sys.update_spatial_grid := rfl

/-- Claim C3, counterexample: the two colliders `tallCollider` and
`nestedCollider` have bounds `Rect(0, 0, 10, 100)` and `Rect(2, 50, 6, 100)`
with the same centre x = 5, and their horizontal overlap (6) is the smaller
one; `check_collision` then reports normal (1, 0) in *both* argument
orders, and (1, 0) is not the negation of (1, 0) — the normals are not
antiparallel. -/
theorem C3_counterexample_equal_centres :
    (CollisionSystem.check_collision tallCollider nestedCollider).map
        CollisionData.collision_normal = some ⟨1, 0⟩ ∧
    (CollisionSystem.check_collision nestedCollider tallCollider).map
        CollisionData.collision_normal = some ⟨1, 0⟩ ∧
    (⟨1, 0⟩ : Vec) ≠ ⟨-1, -0⟩ :=
  of_decide_eq_true (by with_unfolding_all rfl)

/-- Claim C7, counterexample: `dragBody` has `gravity_scale = 0`, and two
integrations with `dt = 1` and gravity (0, 980) change its vertical
velocity from 100 to 0 — the default drag (`0.01`) decays the vertical
velocity even though gravity is skipped. -/
theorem C7_counterexample_drag_changes_vy :
    dragBody.gravity_scale = 0 ∧
    ((fun b => PhysicsBody.integrate b 1 ⟨0, 980⟩)^[2] dragBody).velocity.y ≠
      dragBody.velocity.y :=
  of_decide_eq_true (by with_unfolding_all rfl)

/-- Claim C2: in `PhysicsUtils.resolve_collision`, when exactly one body has
infinite mass only the finite-mass body's position is displaced — by the
full penetration-depth separation vector along the normal — and the
infinite-mass body's position and velocity are both left untouched (the
impulse and the friction impulse go only to the finite body); when both
masses are finite the positional correction is the mass-weighted split
`body1 += normal*depth * m2/(m1+m2)`, `body2 -= normal*depth * m1/(m1+m2)`,
so the heavier body moves less. -/
theorem C2_mass_weighted_resolution (body1 body2 : PhysicsBody)
    (collision : CollisionData) :
    (body1.mass = PMass.inf → ∀ m2, body2.mass = PMass.fin m2 →
      (PhysicsUtils.resolve_collision body1 body2 collision).1.position = body1.position ∧
      (PhysicsUtils.resolve_collision body1 body2 collision).1.velocity = body1.velocity ∧
      (PhysicsUtils.resolve_collision body1 body2 collision).2.position =
        body2.position - collision.collision_normal.smul collision.penetration_depth) ∧
    (body2.mass = PMass.inf → ∀ m1, body1.mass = PMass.fin m1 →
      (PhysicsUtils.resolve_collision body1 body2 collision).2.position = body2.position ∧
      (PhysicsUtils.resolve_collision body1 body2 collision).2.velocity = body2.velocity ∧
      (PhysicsUtils.resolve_collision body1 body2 collision).1.position =
        body1.position + collision.collision_normal.smul collision.penetration_depth) ∧
    (∀ m1 m2, body1.mass = PMass.fin m1 → body2.mass = PMass.fin m2 →
      (PhysicsUtils.resolve_collision body1 body2 collision).1.position = body1.position +
        (collision.collision_normal.smul collision.penetration_depth).smul
          (m2 / (m1 + m2)) ∧
      (PhysicsUtils.resolve_collision body1 body2 collision).2.position = body2.position -
        (collision.collision_normal.smul collision.penetration_depth).smul
          (m1 / (m1 + m2))) := by
  refine ⟨?_, ?_, ?_⟩
  · intro h1 m2 h2
    have hni : ¬(body1.mass = PMass.inf ∧ body2.mass = PMass.inf) := by simp [h2]
    have hsep := separateBodies_inf1 body1 body2 collision h1
    have hpos := resolve_collision_position body1 body2 collision hni
    refine ⟨?_, ?_, ?_⟩
    · rw [hpos.1, hsep]
    · unfold PhysicsUtils.resolve_collision
      rw [if_neg hni]
      dsimp only
      split_ifs with hv
      · rw [hsep]
      · rw [applyImpulseAndFriction_velocity_inf1 _ _ _ _ _ (by rw [hsep]; exact h1),
          hsep]
    · rw [hpos.2, hsep]
  · intro h2 m1 h1
    have hni : ¬(body1.mass = PMass.inf ∧ body2.mass = PMass.inf) := by simp [h1]
    have hsep := separateBodies_inf2 body1 body2 collision m1 h1 h2
    have hpos := resolve_collision_position body1 body2 collision hni
    refine ⟨?_, ?_, ?_⟩
    · rw [hpos.2, hsep]
    · unfold PhysicsUtils.resolve_collision
      rw [if_neg hni]
      dsimp only
      split_ifs with hv
      · rw [hsep]
      · rw [applyImpulseAndFriction_velocity_inf2 _ _ _ _ _ (by rw [hsep]; exact h2),
          hsep]
    · rw [hpos.1, hsep]
  · intro m1 m2 h1 h2
    have hni : ¬(body1.mass = PMass.inf ∧ body2.mass = PMass.inf) := by simp [h1]
    have hsep := separateBodies_fin body1 body2 collision m1 m2 h1 h2
    have hpos := resolve_collision_position body1 body2 collision hni
    constructor
    · rw [hpos.1, hsep]
    · rw [hpos.2, hsep]
      apply Vec.extEq <;> simp [Vec.add_def, Vec.sub_def, Vec.smul] <;> ring

/-- Witness for C2: an infinite-mass platform body above a unit-mass body,
normal (0, -1), depth 5 — only the finite body is displaced and the
infinite body keeps position and velocity. -/
theorem C2_witness :
    (PhysicsUtils.resolve_collision platformBody dragBody
        ⟨⟨0, 0⟩, ⟨0, -1⟩, 5, "bottom"⟩).1.position = platformBody.position ∧
    (PhysicsUtils.resolve_collision platformBody dragBody
        ⟨⟨0, 0⟩, ⟨0, -1⟩, 5, "bottom"⟩).1.velocity = platformBody.velocity ∧
    (PhysicsUtils.resolve_collision platformBody dragBody
        ⟨⟨0, 0⟩, ⟨0, -1⟩, 5, "bottom"⟩).2.position =
      dragBody.position -
        (⟨⟨0, 0⟩, ⟨0, -1⟩, 5, "bottom"⟩ : CollisionData).collision_normal.smul
          (⟨⟨0, 0⟩, ⟨0, -1⟩, 5, "bottom"⟩ : CollisionData).penetration_depth :=
  (C2_mass_weighted_resolution platformBody dragBody _).1 rfl 1 rfl

/-- Claim C5: when the relative velocity along the contact normal is strictly
positive (the bodies are already separating), `PhysicsUtils.resolve_collision`
applies only the positional separation — both velocities are unchanged. -/
theorem C5_separating_velocity_skip (body1 body2 : PhysicsBody)
    (collision : CollisionData)
    (hsep : (body1.velocity - body2.velocity).dot collision.collision_normal > 0) :
    PhysicsUtils.resolve_collision body1 body2 collision =
      (if body1.mass = PMass.inf ∧ body2.mass = PMass.inf then (body1, body2)
       else PhysicsUtils.separateBodies body1 body2 collision) ∧
    (PhysicsUtils.resolve_collision body1 body2 collision).1.velocity =
      body1.velocity ∧
    (PhysicsUtils.resolve_collision body1 body2 collision).2.velocity =
      body2.velocity := by
  have hv := separateBodies_velocity body1 body2 collision
  have heq : PhysicsUtils.resolve_collision body1 body2 collision =
      (if body1.mass = PMass.inf ∧ body2.mass = PMass.inf then (body1, body2)
       else PhysicsUtils.separateBodies body1 body2 collision) := by
    unfold PhysicsUtils.resolve_collision
    split_ifs with hb
    · rfl
    · dsimp only
      rw [hv.1, hv.2, if_pos hsep]
  refine ⟨heq, ?_, ?_⟩ <;> rw [heq] <;> split_ifs <;> simp [hv.1, hv.2]

/-- Witness for C5: two unit-mass bodies moving apart along the normal
(0, -1); resolution separates them positionally but keeps both
velocities. -/
theorem C5_witness :
    PhysicsUtils.resolve_collision
        { position := ⟨0, 0⟩, velocity := ⟨0, -5⟩, acceleration := ⟨0, 0⟩ }
        { position := ⟨0, 8⟩, velocity := ⟨0, 0⟩, acceleration := ⟨0, 0⟩ }
        ⟨⟨0, 5⟩, ⟨0, -1⟩, 2, "bottom"⟩ =
      (if ({ position := ⟨0, 0⟩, velocity := ⟨0, -5⟩, acceleration := ⟨0, 0⟩ }
              : PhysicsBody).mass = PMass.inf ∧
          ({ position := ⟨0, 8⟩, velocity := ⟨0, 0⟩, acceleration := ⟨0, 0⟩ }
              : PhysicsBody).mass = PMass.inf then
        ({ position := ⟨0, 0⟩, velocity := ⟨0, -5⟩, acceleration := ⟨0, 0⟩ },
         { position := ⟨0, 8⟩, velocity := ⟨0, 0⟩, acceleration := ⟨0, 0⟩ })
       else
        PhysicsUtils.separateBodies
          { position := ⟨0, 0⟩, velocity := ⟨0, -5⟩, acceleration := ⟨0, 0⟩ }
          { position := ⟨0, 8⟩, velocity := ⟨0, 0⟩, acceleration := ⟨0, 0⟩ }
          ⟨⟨0, 5⟩, ⟨0, -1⟩, 2, "bottom"⟩) ∧
    (PhysicsUtils.resolve_collision
        { position := ⟨0, 0⟩, velocity := ⟨0, -5⟩, acceleration := ⟨0, 0⟩ }
        { position := ⟨0, 8⟩, velocity := ⟨0, 0⟩, acceleration := ⟨0, 0⟩ }
        ⟨⟨0, 5⟩, ⟨0, -1⟩, 2, "bottom"⟩).1.velocity = ⟨0, -5⟩ ∧
    (PhysicsUtils.resolve_collision
        { position := ⟨0, 0⟩, velocity := ⟨0, -5⟩, acceleration := ⟨0, 0⟩ }
        { position := ⟨0, 8⟩, velocity := ⟨0, 0⟩, acceleration := ⟨0, 0⟩ }
        ⟨⟨0, 5⟩, ⟨0, -1⟩, 2, "bottom"⟩).2.velocity = ⟨0, 0⟩ :=
  C5_separating_velocity_skip _ _ _ (of_decide_eq_true (by with_unfolding_all rfl))

/-- For a unit collision normal, a penetration depth in [0, 50] and
positive masses, each positional correction made by
`PhysicsUtils.resolve_collision` has squared magnitude at most 2500 (i.e.
magnitude at most 50). -/
theorem resolve_collision_delta_bound (b1 b2 : PhysicsBody) (col : CollisionData)
    (hn : col.collision_normal.magnitude_squared = 1)
    (hd : 0 ≤ col.penetration_depth) (hD : col.penetration_depth ≤ 50)
    (hm1 : massPositive b1.mass) (hm2 : massPositive b2.mass) :
    ((PhysicsUtils.resolve_collision b1 b2 col).1.position -
        b1.position).magnitude_squared ≤ 2500 ∧
    ((PhysicsUtils.resolve_collision b1 b2 col).2.position -
        b2.position).magnitude_squared ≤ 2500 := by
  have hn' : col.collision_normal.x * col.collision_normal.x +
      col.collision_normal.y * col.collision_normal.y = 1 := hn
  have hd2 : col.penetration_depth * col.penetration_depth ≤ 2500 := by nlinarith
  by_cases hb : b1.mass = PMass.inf ∧ b2.mass = PMass.inf
  · rw [resolve_collision_both_inf b1 b2 col hb.1 hb.2]
    constructor <;>
      · simp [Vec.sub_def, Vec.magnitude_squared]
  · have hpos := resolve_collision_position b1 b2 col hb
    rw [hpos.1, hpos.2]
    rcases h1 : b1.mass with _ | m1 <;> rcases h2 : b2.mass with _ | m2
    · exact absurd ⟨h1, h2⟩ hb
    · rw [separateBodies_inf1 b1 b2 col h1]
      dsimp only
      constructor
      · simp [Vec.sub_def, Vec.magnitude_squared]
      · have heq : (b2.position - col.collision_normal.smul col.penetration_depth -
            b2.position).magnitude_squared =
            col.penetration_depth * col.penetration_depth *
              (col.collision_normal.x * col.collision_normal.x +
               col.collision_normal.y * col.collision_normal.y) := by
          simp [Vec.sub_def, Vec.smul, Vec.magnitude_squared]
          ring
        rw [heq, hn', mul_one]
        exact hd2
    · rw [separateBodies_inf2 b1 b2 col m1 h1 h2]
      dsimp only
      constructor
      · have heq : (b1.position + col.collision_normal.smul col.penetration_depth -
            b1.position).magnitude_squared =
            col.penetration_depth * col.penetration_depth *
              (col.collision_normal.x * col.collision_normal.x +
               col.collision_normal.y * col.collision_normal.y) := by
          simp [Vec.add_def, Vec.sub_def, Vec.smul, Vec.magnitude_squared]
          ring
        rw [heq, hn', mul_one]
        exact hd2
      · simp [Vec.sub_def, Vec.magnitude_squared]
    · rw [separateBodies_fin b1 b2 col m1 m2 h1 h2]
      dsimp only
      rw [h1] at hm1
      rw [h2] at hm2
      have hm1' : 0 < m1 := hm1
      have hm2' : 0 < m2 := hm2
      have ht : 0 < m1 + m2 := by linarith
      have hf2 : m2 / (m1 + m2) ≤ 1 := by
        rw [div_le_one ht]; linarith
      have hf2' : 0 ≤ m2 / (m1 + m2) := by positivity
      have hf1 : m1 / (m1 + m2) ≤ 1 := by
        rw [div_le_one ht]; linarith
      have hf1' : 0 ≤ m1 / (m1 + m2) := by positivity
      constructor
      · have heq : (b1.position +
            (col.collision_normal.smul col.penetration_depth).smul (m2 / (m1 + m2)) -
            b1.position).magnitude_squared =
            (col.penetration_depth * (m2 / (m1 + m2))) *
              (col.penetration_depth * (m2 / (m1 + m2))) *
              (col.collision_normal.x * col.collision_normal.x +
               col.collision_normal.y * col.collision_normal.y) := by
          simp [Vec.add_def, Vec.sub_def, Vec.smul, Vec.magnitude_squared]
          ring
        rw [heq, hn', mul_one]
        have hdf : 0 ≤ col.penetration_depth * (m2 / (m1 + m2)) := mul_nonneg hd hf2'
        have hdfB : col.penetration_depth * (m2 / (m1 + m2)) ≤ 50 :=
          le_trans (mul_le_of_le_one_right hd hf2) hD
        nlinarith [mul_le_mul hdfB hdfB hdf (by norm_num : (0 : ℚ) ≤ 50)]
      · have heq : (b2.position +
            (col.collision_normal.smul col.penetration_depth).smul (-m1 / (m1 + m2)) -
            b2.position).magnitude_squared =
            (col.penetration_depth * (m1 / (m1 + m2))) *
              (col.penetration_depth * (m1 / (m1 + m2))) *
              (col.collision_normal.x * col.collision_normal.x +
               col.collision_normal.y * col.collision_normal.y) := by
          simp [Vec.add_def, Vec.sub_def, Vec.smul, Vec.magnitude_squared]
          ring
        rw [heq, hn', mul_one]
        have hdf : 0 ≤ col.penetration_depth * (m1 / (m1 + m2)) := mul_nonneg hd hf1'
        have hdfB : col.penetration_depth * (m1 / (m1 + m2)) ≤ 50 :=
          le_trans (mul_le_of_le_one_right hd hf1) hD
        nlinarith [mul_le_mul hdfB hdfB hdf (by norm_num : (0 : ℚ) ≤ 50)]

/-- Claim C4: for every non-trigger pair passed through
`CollisionSystem.resolve_collision` with a unit collision normal, a
nonnegative detected penetration depth and positive masses, the positional
correction applied to either body has squared magnitude at most 2500 —
i.e. magnitude at most 50 — even when the detected depth is larger (the
depth is clamped to 50 before resolution). -/
theorem C4_penetration_clamp (collider1 collider2 : Collider)
    (collision : CollisionData)
    (ht1 : collider1.is_trigger = false) (ht2 : collider2.is_trigger = false)
    (hn : collision.collision_normal.magnitude_squared = 1)
    (hd : 0 ≤ collision.penetration_depth)
    (hm1 : massPositive collider1.physics_body.mass)
    (hm2 : massPositive collider2.physics_body.mass) :
    ((CollisionSystem.resolve_collision collider1 collider2 collision).1.position -
        collider1.physics_body.position).magnitude_squared ≤ 2500 ∧
    ((CollisionSystem.resolve_collision collider1 collider2 collision).2.position -
        collider2.physics_body.position).magnitude_squared ≤ 2500 := by
  unfold CollisionSystem.resolve_collision
  rw [ht1, ht2]
  dsimp only
  by_cases hcl : collision.penetration_depth > 50
  · rw [if_pos hcl]
    exact resolve_collision_delta_bound _ _ _ hn (by norm_num) (by norm_num) hm1 hm2
  · rw [if_neg hcl]
    exact resolve_collision_delta_bound _ _ _ hn hd (by linarith) hm1 hm2

/-- Witness for C4: an overlap of depth 500 between a static platform and a
unit-mass body still yields corrections of squared magnitude at most 2500
(the clamp turns 500 into 50). -/
theorem C4_witness :
    ((CollisionSystem.resolve_collision platformCollider runnerCollider
        ⟨⟨0, 0⟩, ⟨0, 1⟩, 500, "top"⟩).1.position -
      platformCollider.physics_body.position).magnitude_squared ≤ 2500 ∧
    ((CollisionSystem.resolve_collision platformCollider runnerCollider
        ⟨⟨0, 0⟩, ⟨0, 1⟩, 500, "top"⟩).2.position -
      runnerCollider.physics_body.position).magnitude_squared ≤ 2500 :=
  C4_penetration_clamp platformCollider runnerCollider _ rfl rfl
    (of_decide_eq_true (by with_unfolding_all rfl))
    (of_decide_eq_true (by with_unfolding_all rfl))
    trivial (by show (0 : ℚ) < 1; norm_num)

/-- One integration step of a body with `gravity_scale = 0`, zero drag and
zero vertical acceleration: the vertical velocity survives and the
invariant is maintained. -/
theorem integrate_no_drag_vy (b : PhysicsBody) (dt : ℚ) (g : Vec)
    (hs : b.gravity_scale = 0) (hdrag : b.drag = 0) (ha : b.acceleration.y = 0) :
    (b.integrate dt g).velocity.y = b.velocity.y ∧
    (b.integrate dt g).acceleration.y = 0 ∧
    (b.integrate dt g).gravity_scale = b.gravity_scale ∧
    (b.integrate dt g).drag = b.drag := by
  unfold PhysicsBody.integrate PhysicsBody.apply_force
  rcases hm : b.mass with _ | m <;>
    simp [hs, hdrag, hm, Vec.smul, Vec.divMass, Vec.divQ, Vec.add_def, Vec.zero, ha]

/-- Claim C7, amended: a body with `gravity_scale = 0` *and zero drag and
zero initial vertical acceleration* keeps its vertical velocity unchanged
under any number of `integrate` calls, for any `dt` and any gravity vector
(in particular nonzero ones).  (The unamended claim fails because the
default drag `0.01` decays a nonzero vertical velocity —
`C7_counterexample_drag_changes_vy`.) -/
theorem C7_amended_gravity_scale_zero_immunity (b : PhysicsBody) (dt : ℚ) (g : Vec)
    (hs : b.gravity_scale = 0) (hdrag : b.drag = 0) (ha : b.acceleration.y = 0) :
    ∀ n, ((fun bb => PhysicsBody.integrate bb dt g)^[n] b).velocity.y =
      b.velocity.y := by
  suffices h : ∀ n, ((fun bb => PhysicsBody.integrate bb dt g)^[n] b).velocity.y =
      b.velocity.y ∧
      ((fun bb => PhysicsBody.integrate bb dt g)^[n] b).acceleration.y = 0 ∧
      ((fun bb => PhysicsBody.integrate bb dt g)^[n] b).gravity_scale = 0 ∧
      ((fun bb => PhysicsBody.integrate bb dt g)^[n] b).drag = 0 by
    exact fun n => (h n).1
  intro n
  induction n with
  | zero => exact ⟨rfl, ha, hs, hdrag⟩
  | succ k ih =>
    obtain ⟨h1, h2, h3, h4⟩ := ih
    rw [Function.iterate_succ_apply']
    have step := integrate_no_drag_vy _ dt g h3 h4 h2
    exact ⟨step.1.trans h1, step.2.1, step.2.2.1.trans h3, step.2.2.2.trans h4⟩

/-- Witness for C7 (amended): five integrations with `dt = 1` under
gravity (0, 980) leave `coastBody`'s vertical velocity at 7. -/
theorem C7_witness :
    ((fun bb => PhysicsBody.integrate bb 1 ⟨0, 980⟩)^[5] coastBody).velocity.y =
      coastBody.velocity.y :=
  C7_amended_gravity_scale_zero_immunity coastBody 1 ⟨0, 980⟩ rfl rfl rfl 5

/-- Claim C8: `can_collide` is a pure lookup in the static adjacency table:
`can_collide(PICKUP, PLATFORM)` is false, `can_collide(PLAYER, PLATFORM)`
is true, every pair not listed in the table yields false (default-deny),
and for a disallowed pair `check_collision` returns `None` without reaching
the geometric narrow phase. -/
theorem C8_layer_table_default_deny :
    CollisionLayer.can_collide CollisionLayer.PICKUP CollisionLayer.PLATFORM = false ∧
    CollisionLayer.can_collide CollisionLayer.PLAYER CollisionLayer.PLATFORM = true ∧
    (∀ l1 l2 : ℤ, (l1, l2) ∉ allowedLayerPairs →
      CollisionLayer.can_collide l1 l2 = false) ∧
    (∀ c1 c2 : Collider, CollisionLayer.can_collide c1.layer c2.layer = false →
      CollisionSystem.check_collision c1 c2 = none) := by
  refine ⟨of_decide_eq_true (by with_unfolding_all rfl),
    of_decide_eq_true (by with_unfolding_all rfl), ?_, ?_⟩
  · intro l1 l2 hna
    cases hcc : CollisionLayer.can_collide l1 l2 with
    | false => rfl
    | true =>
      exfalso
      apply hna
      have hmem : l2 ∈ CollisionLayer.matrixLookup l1 := by
        unfold CollisionLayer.can_collide at hcc
        exact of_decide_eq_true hcc
      unfold CollisionLayer.matrixLookup at hmem
      split_ifs at hmem with e1 e2 e3 e4 e5 <;>
        simp_all [allowedLayerPairs, CollisionLayer.PLAYER, CollisionLayer.PLATFORM,
          CollisionLayer.ENEMY, CollisionLayer.PICKUP, CollisionLayer.TRIGGER]
  · intro c1 c2 h
    unfold CollisionSystem.check_collision
    rw [h]
    simp

/-- Witness for C8: layer pair (3, 1) is not in the table, so it cannot
collide, and two platform-layer colliders (platforms do not collide with
platforms) are rejected before any geometry is examined. -/
theorem C8_witness :
    CollisionLayer.can_collide 3 1 = false ∧
    CollisionSystem.check_collision restCollider restCollider = none :=
  ⟨C8_layer_table_default_deny.2.2.1 3 1 (of_decide_eq_true (by with_unfolding_all rfl)),
   C8_layer_table_default_deny.2.2.2 restCollider restCollider
     (of_decide_eq_true (by with_unfolding_all rfl))⟩

/-- The layer adjacency table is symmetric. -/
theorem can_collide_symm (l1 l2 : ℤ) :
    CollisionLayer.can_collide l1 l2 = CollisionLayer.can_collide l2 l1 := by
  unfold CollisionLayer.can_collide CollisionLayer.matrixLookup CollisionLayer.PLAYER
    CollisionLayer.PLATFORM CollisionLayer.ENEMY CollisionLayer.PICKUP
    CollisionLayer.TRIGGER
  split_ifs <;> simp_all

/-- Python `pygame.Rect.colliderect` is symmetric. -/
theorem colliderect_comm (a b : Rect) : a.colliderect b = b.colliderect a := by
  simp only [Rect.colliderect, Rect.right, Rect.bottom, decide_eq_decide]
  omega

/-- The AABB narrow phase reports a collision exactly when the rects
strictly overlap. -/
theorem aabb_isSome (r1 r2 : Rect) :
    (PhysicsUtils.aabb_collision_data r1 r2).isSome = r1.colliderect r2 := by
  unfold PhysicsUtils.aabb_collision_data
  by_cases h : r1.colliderect r2
  · rw [if_pos h, h]
    dsimp only
    split_ifs <;> rfl
  · rw [if_neg h]
    simp only [Bool.not_eq_true] at h
    rw [h]
    rfl

/-- The `__post_init__` normalization fixes any normal it cannot change. -/
theorem mk_normal_fixed (p : Vec) (d : ℚ) (s : String) (n : Vec)
    (hn : (if n.magnitude > 0 then n.normalize else n) = n) :
    (mkCollisionData p n d s).collision_normal = n := hn

/-- When the two rects' centres differ on both axes, the two argument
orders of the AABB narrow phase produce antiparallel normals. -/
theorem aabb_normals_antiparallel (r1 r2 : Rect)
    (hx : r1.centerx ≠ r2.centerx) (hy : r1.centery ≠ r2.centery) :
    (PhysicsUtils.aabb_collision_data r1 r2).map CollisionData.collision_normal =
      (PhysicsUtils.aabb_collision_data r2 r1).map
        (fun d => ⟨-d.collision_normal.x, -d.collision_normal.y⟩) := by
  have hE : ∀ p d s, (mkCollisionData p ⟨1, 0⟩ d s).collision_normal = ⟨1, 0⟩ :=
    fun p d s => mk_normal_fixed p d s ⟨1, 0⟩
      (of_decide_eq_true (by with_unfolding_all rfl))
  have hW : ∀ p d s, (mkCollisionData p ⟨-1, 0⟩ d s).collision_normal = ⟨-1, 0⟩ :=
    fun p d s => mk_normal_fixed p d s ⟨-1, 0⟩
      (of_decide_eq_true (by with_unfolding_all rfl))
  have hN : ∀ p d s, (mkCollisionData p ⟨0, -1⟩ d s).collision_normal = ⟨0, -1⟩ :=
    fun p d s => mk_normal_fixed p d s ⟨0, -1⟩
      (of_decide_eq_true (by with_unfolding_all rfl))
  have hS : ∀ p d s, (mkCollisionData p ⟨0, 1⟩ d s).collision_normal = ⟨0, 1⟩ :=
    fun p d s => mk_normal_fixed p d s ⟨0, 1⟩
      (of_decide_eq_true (by with_unfolding_all rfl))
  unfold PhysicsUtils.aabb_collision_data
  rw [colliderect_comm r2 r1]
  simp only [Rect.centerx, Rect.centery, Rect.right, Rect.bottom] at hx hy ⊢
  split_ifs <;>
    first
      | (exfalso; omega)
      | (simp [Option.map_some', hE, hW, hN, hS])

/-- Claim C3, amended: `check_collision(A, B)` is non-null iff
`check_collision(B, A)` is (overlap detection is commutative), and whenever
the two bounds' centres differ on both axes the two results' normals are
antiparallel (each the negation of the other).  Without that centre
condition the claim fails: a tie on the deciding axis produces the *same*
normal in both orders (`C3_counterexample_equal_centres`). -/
theorem C3_amended_commutative_detection (c1 c2 : Collider) :
    ((CollisionSystem.check_collision c1 c2).isSome ↔
      (CollisionSystem.check_collision c2 c1).isSome) ∧
    (c1.get_bounds.centerx ≠ c2.get_bounds.centerx →
     c1.get_bounds.centery ≠ c2.get_bounds.centery →
     (CollisionSystem.check_collision c1 c2).map CollisionData.collision_normal =
       (CollisionSystem.check_collision c2 c1).map
         (fun d => ⟨-d.collision_normal.x, -d.collision_normal.y⟩)) := by
  constructor
  · unfold CollisionSystem.check_collision
    by_cases he : c1.enabled = true ∧ c2.enabled = true
    · have he' : ¬¬(c2.enabled = true ∧ c1.enabled = true) := fun hh =>
        hh ⟨he.2, he.1⟩
      rw [if_neg (not_not_intro he), if_neg he',
        can_collide_symm c2.layer c1.layer]
      split_ifs with hcan
      · simp [aabb_isSome, colliderect_comm c2.get_bounds c1.get_bounds]
      · exact Iff.rfl
    · have he' : ¬(c2.enabled = true ∧ c1.enabled = true) := fun hh =>
        he ⟨hh.2, hh.1⟩
      rw [if_pos he, if_pos he']
  · intro hx hy
    unfold CollisionSystem.check_collision
    by_cases he : c1.enabled = true ∧ c2.enabled = true
    · have he' : ¬¬(c2.enabled = true ∧ c1.enabled = true) := fun hh =>
        hh ⟨he.2, he.1⟩
      rw [if_neg (not_not_intro he), if_neg he',
        can_collide_symm c2.layer c1.layer]
      split_ifs with hcan
      · exact aabb_normals_antiparallel c1.get_bounds c2.get_bounds hx hy
      · rfl
    · have he' : ¬(c2.enabled = true ∧ c1.enabled = true) := fun hh =>
        he ⟨hh.2, hh.1⟩
      rw [if_pos he, if_pos he']
      rfl

/-- Witness for C3 (amended): the offset pair's centres differ on both
axes, and the two argument orders give antiparallel normals. -/
theorem C3_witness :
    (CollisionSystem.check_collision offsetColliderA offsetColliderB).map
        CollisionData.collision_normal =
      (CollisionSystem.check_collision offsetColliderB offsetColliderA).map
        (fun d => ⟨-d.collision_normal.x, -d.collision_normal.y⟩) :=
  (C3_amended_commutative_detection offsetColliderA offsetColliderB).2
    (of_decide_eq_true (by with_unfolding_all rfl))
    (of_decide_eq_true (by with_unfolding_all rfl))

/-! ### Helper lemmas about `CollisionSystem.update` -/

/-- Integration of an infinite-mass body with zero acceleration and zero
gravity scale just advances the position by `velocity * dt`: gravity is
skipped, and the drag force is annihilated by the division by the infinite
mass. -/
theorem integrate_free (b : PhysicsBody) (dt : ℚ) (g : Vec)
    (hm : b.mass = PMass.inf) (ha : b.acceleration = Vec.zero)
    (hs : b.gravity_scale = 0) :
    b.integrate dt g = freeStep dt b := by
  have h0 : ∀ q : ℚ, Vec.zero.smul q = Vec.zero := fun q =>
    Vec.extEq (by simp [Vec.smul, Vec.zero]) (by simp [Vec.smul, Vec.zero])
  have hp : ∀ v : Vec, v + Vec.zero = v := fun v =>
    Vec.extEq (by simp [Vec.add_def, Vec.zero]) (by simp [Vec.add_def, Vec.zero])
  unfold PhysicsBody.integrate PhysicsBody.apply_force freeStep
  rw [if_neg (by rw [hs]; exact lt_irrefl 0)]
  dsimp only [Vec.divMass]
  rw [hm]
  dsimp only
  rw [ha, hp Vec.zero, h0, h0, hp, hp]

/-- The gravity pass is the identity on a collider with zero gravity
scale. -/
theorem applyGravityPhase_zero (g : Vec) (c : Collider)
    (hs : c.physics_body.gravity_scale = 0) :
    applyGravityPhase g c = c := by
  unfold applyGravityPhase
  rw [if_neg]
  rw [hs]
  simp

/-- Python `List.set` with an element that `f` cannot tell from the one already
there leaves the `f`-image of every entry unchanged. -/
theorem get?_set_map_eq {β : Type} (f : Collider → β) (cs : List Collider) (i : ℕ)
    (c c' : Collider) (hc : cs.get? i = some c) (hf : f c' = f c) :
    ∀ k, ((cs.set i c').get? k).map f = (cs.get? k).map f := by
  intro k
  rw [List.get?_set]
  split_ifs with h
  · subst h
    rw [hc]
    simp [hf]
  · rfl

/-- Python `_handle_collision_events` only touches `current_collisions`: the
`bodyEn` image of every entry is unchanged. -/
theorem handle_events_bodyEn (cs : List Collider) (i j : ℕ) :
    ∀ k, ((handle_collision_events cs i j).1.get? k).map bodyEn =
      (cs.get? k).map bodyEn := by
  intro k
  unfold handle_collision_events
  cases hci : cs.get? i with
  | none => rfl
  | some c =>
    dsimp only
    split_ifs with hmem
    · rfl
    · exact get?_set_map_eq bodyEn cs i c
        { c with current_collisions := insert j c.current_collisions } hci rfl k

/-- Python `CollisionSystem.resolve_collision` between two infinite-mass bodies
returns the bodies unchanged, trigger or not. -/
theorem sys_resolve_both_inf (c1 c2 : Collider) (col : CollisionData)
    (h1 : c1.physics_body.mass = PMass.inf) (h2 : c2.physics_body.mass = PMass.inf) :
    CollisionSystem.resolve_collision c1 c2 col = (c1.physics_body, c2.physics_body) := by
  unfold CollisionSystem.resolve_collision
  split_ifs with ht hcl
  · rfl
  · exact resolve_collision_both_inf _ _ _ h1 h2
  · exact resolve_collision_both_inf _ _ _ h1 h2

/-- One step of the resolution loop preserves the `bodyEn` image of every
entry when all colliders have infinite mass. -/
theorem resolveStep_bodyEn (cs : List Collider) (evs : List CollisionEvent)
    (p : ℕ × ℕ × CollisionData)
    (hmass : ∀ k c, cs.get? k = some c → c.physics_body.mass = PMass.inf) :
    ∀ k, ((resolveStep (cs, evs) p).1.get? k).map bodyEn = (cs.get? k).map bodyEn := by
  intro k
  unfold resolveStep
  cases hci : cs.get? p.1 with
  | none => rfl
  | some ci =>
    cases hcj : cs.get? p.2.1 with
    | none => rfl
    | some cj =>
      dsimp only
      rw [sys_resolve_both_inf ci cj p.2.2 (hmass _ _ hci) (hmass _ _ hcj)]
      dsimp only
      rw [handle_events_bodyEn, handle_events_bodyEn]
      have hstep1 : ∀ k, ((cs.set p.1 { ci with physics_body := ci.physics_body }).get?
          k).map bodyEn = (cs.get? k).map bodyEn :=
        get?_set_map_eq bodyEn cs p.1 ci { ci with physics_body := ci.physics_body }
          hci rfl
      have hthis := hstep1 p.2.1
      rw [hcj, Option.map_some'] at hthis
      rcases Option.map_eq_some'.mp hthis with ⟨cj', hget, hbe⟩
      have hstep2 : ∀ k, (((cs.set p.1 { ci with physics_body := ci.physics_body }).set
          p.2.1 { cj with physics_body := cj.physics_body }).get? k).map bodyEn =
          ((cs.set p.1 { ci with physics_body := ci.physics_body }).get? k).map bodyEn :=
        get?_set_map_eq bodyEn _ p.2.1 cj'
          { cj with physics_body := cj.physics_body } hget (by rw [hbe])
      exact (hstep2 k).trans (hstep1 k)

/-- The integration pass on a free-floating infinite-mass collider:
enabled colliders advance by `velocity * dt`, disabled ones are
untouched. -/
theorem integratePhase_free (dt : ℚ) (g : Vec) (c : Collider)
    (hm : c.physics_body.mass = PMass.inf) (ha : c.physics_body.acceleration = Vec.zero)
    (hs : c.physics_body.gravity_scale = 0) :
    bodyEn (integratePhase dt g c) =
      (if c.enabled = true then freeStep dt c.physics_body else c.physics_body,
       c.enabled) := by
  unfold integratePhase
  split_ifs with he
  · dsimp only [bodyEn]
    rw [integrate_free c.physics_body dt g hm ha hs]
  · rfl

/-- The whole resolution loop preserves the `bodyEn` image of every entry
when all colliders have infinite mass. -/
theorem foldResolve_bodyEn (pairs : List (ℕ × ℕ × CollisionData)) :
    ∀ (cs : List Collider) (evs : List CollisionEvent),
    (∀ k c, cs.get? k = some c → c.physics_body.mass = PMass.inf) →
    ∀ k, ((pairs.foldl resolveStep (cs, evs)).1.get? k).map bodyEn =
      (cs.get? k).map bodyEn := by
  induction pairs with
  | nil => intro cs evs _ k; rfl
  | cons p ps ih =>
    intro cs evs hmass k
    rw [List.foldl_cons]
    have hstep := resolveStep_bodyEn cs evs p hmass
    have hmass' : ∀ k c, (resolveStep (cs, evs) p).1.get? k = some c →
        c.physics_body.mass = PMass.inf := by
      intro k' c' hc'
      have hk := hstep k'
      rw [hc'] at hk
      cases hck : cs.get? k' with
      | none => rw [hck] at hk; simp at hk
      | some c0 =>
        rw [hck] at hk
        simp only [Option.map_some', Option.some.injEq, bodyEn, Prod.mk.injEq] at hk
        rw [hk.1]
        exact hmass _ _ hck
    exact (ih _ _ hmass' k).trans (hstep k)

/-- A full `update(dt)` on a system in which every collider has infinite
mass, zero acceleration and zero gravity scale: gravity is skipped,
integration advances every enabled body by `velocity * dt`, and the
resolution loop leaves all bodies alone. -/
theorem update_bodyEn_free (sys : CollisionSystem) (dt : ℚ)
    (h : ∀ c ∈ sys.colliders, c.physics_body.mass = PMass.inf ∧
        c.physics_body.acceleration = Vec.zero ∧ c.physics_body.gravity_scale = 0) :
    ∀ k, (((sys.update dt).1).colliders.get? k).map bodyEn =
      (sys.colliders.get? k).map (fun c =>
        (if c.enabled = true then freeStep dt c.physics_body else c.physics_body,
         c.enabled)) := by
  intro k
  unfold CollisionSystem.update
  dsimp only
  have hmass : ∀ j c, ((sys.colliders.map (applyGravityPhase sys.gravity)).map
      (integratePhase dt sys.gravity)).get? j = some c →
      c.physics_body.mass = PMass.inf := by
    intro j c hc
    rw [List.get?_map, List.get?_map] at hc
    cases hck : sys.colliders.get? j with
    | none => rw [hck] at hc; simp at hc
    | some c0 =>
      rw [hck] at hc
      simp only [Option.map_some', Option.some.injEq] at hc
      obtain ⟨hm0, ha0, hs0⟩ := h c0 (List.get?_mem hck)
      rw [applyGravityPhase_zero _ _ hs0] at hc
      rw [← hc]
      have hb : (integratePhase dt sys.gravity c0).physics_body =
          (if c0.enabled = true then freeStep dt c0.physics_body
           else c0.physics_body) :=
        congrArg Prod.fst (integratePhase_free dt sys.gravity c0 hm0 ha0 hs0)
      rw [hb]
      split_ifs
      · exact hm0
      · exact hm0
  rw [foldResolve_bodyEn _ _ _ hmass k, List.get?_map, List.get?_map]
  cases hck : sys.colliders.get? k with
  | none => rfl
  | some c0 =>
    obtain ⟨hm0, ha0, hs0⟩ := h c0 (List.get?_mem hck)
    simp only [Option.map_some']
    rw [applyGravityPhase_zero _ _ hs0]
    exact congrArg some (integratePhase_free dt sys.gravity c0 hm0 ha0 hs0)

/-- One tick moves `driftAfter n` to `driftAfter (n + 1)`. -/
theorem freeStep_driftAfter (n : ℕ) :
    freeStep 1 (driftAfter n) = driftAfter (n + 1) := by
  unfold freeStep driftAfter driftBody
  dsimp only
  congr 1
  apply Vec.extEq <;> simp [Vec.add_def, Vec.smul]

/-- A tick is the identity on a body at rest. -/
theorem freeStep_at_rest (dt : ℚ) (b : PhysicsBody) (hv : b.velocity = Vec.zero) :
    freeStep dt b = b := by
  unfold freeStep
  have hpos : b.position + b.velocity.smul dt = b.position := by
    rw [hv]
    exact Vec.extEq (by simp [Vec.add_def, Vec.smul, Vec.zero])
      (by simp [Vec.add_def, Vec.smul, Vec.zero])
  rw [hpos]

/-- The tick-by-tick state of the C6 counterexample system: the drifting
body has moved `n` pixels right, everything else is unchanged. -/
theorem driftSystem_invariant : ∀ n : ℕ,
    (((driftStep^[n] driftSystem).colliders.get? 0).map bodyEn =
      some (driftAfter n, true)) ∧
    (((driftStep^[n] driftSystem).colliders.get? 1).map bodyEn =
      some (restBody, true)) ∧
    (∀ k, 2 ≤ k → (driftStep^[n] driftSystem).colliders.get? k = none) := by
  intro n
  induction n with
  | zero =>
    refine ⟨of_decide_eq_true (by with_unfolding_all rfl),
      of_decide_eq_true (by with_unfolding_all rfl), ?_⟩
    intro k hk
    apply List.get?_eq_none.mpr
    show 2 ≤ k
    exact hk
  | succ n ih =>
    obtain ⟨h0, h1, hnone⟩ := ih
    have hfree : ∀ c ∈ (driftStep^[n] driftSystem).colliders,
        c.physics_body.mass = PMass.inf ∧ c.physics_body.acceleration = Vec.zero ∧
        c.physics_body.gravity_scale = 0 := by
      intro c hc
      rcases List.mem_iff_get?.mp hc with ⟨k, hk⟩
      match k, hk with
      | 0, hk =>
        rw [hk] at h0
        simp only [Option.map_some', Option.some.injEq, bodyEn, Prod.mk.injEq] at h0
        rw [h0.1]
        exact ⟨rfl, rfl, rfl⟩
      | 1, hk =>
        rw [hk] at h1
        simp only [Option.map_some', Option.some.injEq, bodyEn, Prod.mk.injEq] at h1
        rw [h1.1]
        exact ⟨rfl, rfl, rfl⟩
      | (k + 2), hk =>
        rw [hnone (k + 2) (by omega)] at hk
        cases hk
    have hstep := update_bodyEn_free (driftStep^[n] driftSystem) 1 hfree
    refine ⟨?_, ?_, ?_⟩
    · have hk := hstep 0
      rw [Function.iterate_succ_apply']
      show (((driftStep^[n] driftSystem).update 1).1.colliders.get? 0).map bodyEn = _
      rw [hk]
      rcases Option.map_eq_some'.mp h0 with ⟨c, hc, hbe⟩
      rw [hc]
      simp only [Option.map_some', Option.some.injEq]
      simp only [bodyEn, Prod.mk.injEq] at hbe
      rw [hbe.2, hbe.1, if_pos rfl, freeStep_driftAfter]
    · have hk := hstep 1
      rw [Function.iterate_succ_apply']
      show (((driftStep^[n] driftSystem).update 1).1.colliders.get? 1).map bodyEn = _
      rw [hk]
      rcases Option.map_eq_some'.mp h1 with ⟨c, hc, hbe⟩
      rw [hc]
      simp only [Option.map_some', Option.some.injEq]
      simp only [bodyEn, Prod.mk.injEq] at hbe
      rw [hbe.2, hbe.1, if_pos rfl, freeStep_at_rest 1 restBody rfl]
    · intro k hk
      have hs := hstep k
      rw [Function.iterate_succ_apply'] at *
      rw [hnone k hk] at hs
      simp only [Option.map_none'] at hs
      exact Option.map_eq_none'.mp hs

/-- Claim C6, counterexample: both bodies of `driftSystem` have infinite
mass, the two colliders overlap (they are a detected colliding pair on
colliding layers), yet after 60 ticks of `update(1)` the first body has
moved from (0, 0) to (60, 0): integration moves an infinite-mass body with
nonzero velocity, so "zero position change" fails without an at-rest
assumption. -/
theorem C6_counterexample_moving_static_pair :
    driftBody.mass = PMass.inf ∧ restBody.mass = PMass.inf ∧
    (CollisionSystem.check_collision driftCollider restCollider).isSome = true ∧
    ((driftStep^[60] driftSystem).colliders.get? 0).map
        (fun c => c.physics_body.position) = some ⟨60, 0⟩ ∧
    (⟨60, 0⟩ : Vec) ≠ driftBody.position := by
  refine ⟨rfl, rfl, of_decide_eq_true (by with_unfolding_all rfl), ?_,
    of_decide_eq_true (by with_unfolding_all rfl)⟩
  have h := (driftSystem_invariant 60).1
  rcases Option.map_eq_some'.mp h with ⟨c, hc, hbe⟩
  rw [hc]
  simp only [Option.map_some', Option.some.injEq]
  simp only [bodyEn, Prod.mk.injEq] at hbe
  rw [hbe.1]
  show (⟨(60 : ℕ), 0⟩ : Vec) = ⟨60, 0⟩
  norm_num

/-- Claim C6, amended: resolution between two infinite-mass bodies is a
silent no-op, and in a system whose colliders all have infinite mass *and
are at rest* (zero velocity and acceleration, `gravity_scale = 0`, as
static platforms are configured), any number of `update(dt)` ticks leaves
every body's position exactly where it started.  The at-rest condition is
what the unamended claim is missing: an infinite-mass body with nonzero
velocity still integrates (`C6_counterexample_moving_static_pair`). -/
theorem C6_amended_static_static_noop (sys : CollisionSystem) (dt : ℚ)
    (h : ∀ c ∈ sys.colliders, StaticBody c.physics_body) :
    (∀ b1 b2 col, b1.mass = PMass.inf → b2.mass = PMass.inf →
      PhysicsUtils.resolve_collision b1 b2 col = (b1, b2)) ∧
    ∀ n k, (((fun s => (s.update dt).1)^[n] sys).colliders.get? k).map
        (fun c => c.physics_body.position) =
      (sys.colliders.get? k).map (fun c => c.physics_body.position) := by
  refine ⟨fun b1 b2 col h1 h2 => resolve_collision_both_inf b1 b2 col h1 h2, ?_⟩
  suffices hs : ∀ n k,
      (((fun s => (s.update dt).1)^[n] sys).colliders.get? k).map bodyEn =
        (sys.colliders.get? k).map bodyEn by
    intro n k
    have hk := hs n k
    cases hck : sys.colliders.get? k with
    | none =>
      rw [hck] at hk
      simp only [Option.map_none'] at hk
      rw [Option.map_eq_none'.mp hk]
    | some c0 =>
      rw [hck] at hk
      rcases Option.map_eq_some'.mp hk with ⟨c, hc, hbe⟩
      rw [hc]
      simp only [Option.map_some', Option.some.injEq]
      simp only [bodyEn, Prod.mk.injEq] at hbe
      rw [hbe.1]
  intro n
  induction n with
  | zero => intro k; rfl
  | succ n ih =>
    have hstatic : ∀ c ∈ ((fun s => (s.update dt).1)^[n] sys).colliders,
        StaticBody c.physics_body := by
      intro c hc
      rcases List.mem_iff_get?.mp hc with ⟨k, hk⟩
      have := ih k
      rw [hk] at this
      cases hck : sys.colliders.get? k with
      | none => rw [hck] at this; simp at this
      | some c0 =>
        rw [hck] at this
        simp only [Option.map_some', Option.some.injEq, bodyEn, Prod.mk.injEq] at this
        rw [this.1]
        exact h c0 (List.get?_mem hck)
    intro k
    rw [Function.iterate_succ_apply']
    have hstep := update_bodyEn_free ((fun s => (s.update dt).1)^[n] sys) dt
      (fun c hc => ⟨(hstatic c hc).1, (hstatic c hc).2.2.1, (hstatic c hc).2.2.2⟩) k
    rw [hstep]
    have hptw : ∀ c, StaticBody c.physics_body →
        ((if c.enabled = true then freeStep dt c.physics_body else c.physics_body),
          c.enabled) = bodyEn c := by
      intro c hcs
      split_ifs with he
      · rw [freeStep_at_rest dt c.physics_body hcs.2.1]
        rfl
      · rfl
    cases hck : ((fun s => (s.update dt).1)^[n] sys).colliders.get? k with
    | none =>
      have hikk := ih k
      rw [hck] at hikk
      simp only [Option.map_none'] at hikk ⊢
      exact hikk
    | some c =>
      simp only [Option.map_some']
      rw [hptw c (hstatic c (List.get?_mem hck))]
      have hikk := ih k
      rw [hck] at hikk
      simp only [Option.map_some'] at hikk
      exact hikk

/-- Witness for C6 (amended): 60 ticks of `update(1)` leave the first
body of the overlapping static pair exactly where it started. -/
theorem C6_witness :
    (((fun s => (s.update 1).1)^[60] stackSystem).colliders.get? 0).map
        (fun c => c.physics_body.position) =
      (stackSystem.colliders.get? 0).map (fun c => c.physics_body.position) :=
  (C6_amended_static_static_noop stackSystem 1
    (of_decide_eq_true (by with_unfolding_all rfl))).2 60 0

/-! ### Helper lemmas for the collision-event bookkeeping (claim C10) -/

/-- The gravity pass never touches `current_collisions`. -/
theorem applyGravityPhase_cc (g : Vec) (c : Collider) :
    (applyGravityPhase g c).current_collisions = c.current_collisions := by
  unfold applyGravityPhase
  split_ifs with h
  · cases c.physics_body.mass <;> rfl
  · rfl

/-- The integration pass never touches `current_collisions`. -/
theorem integratePhase_cc (dt : ℚ) (g : Vec) (c : Collider) :
    (integratePhase dt g c).current_collisions = c.current_collisions := by
  unfold integratePhase
  split_ifs <;> rfl

/-- Python `List.set` never changes which entries exist. -/
theorem set_isSome (cs : List Collider) (i k : ℕ) (c' : Collider) :
    ((cs.set i c').get? k).isSome = (cs.get? k).isSome := by
  rw [List.get?_set]
  split_ifs with hik
  · cases cs.get? k <;> rfl
  · rfl

/-- Replacing the entry at `i` by one with no smaller `current_collisions`
set preserves the invariant "every entry's set contains the corresponding
set of the base list `cs0`". -/
theorem set_preserves_inv (cs0 cs : List Collider) (i : ℕ) (ci c' : Collider)
    (hci : cs.get? i = some ci)
    (hcc : ci.current_collisions ⊆ c'.current_collisions)
    (hsub : ∀ k a b, cs0.get? k = some a → cs.get? k = some b →
      a.current_collisions ⊆ b.current_collisions)
    (hsome : ∀ k, (cs.get? k).isSome = (cs0.get? k).isSome) :
    (∀ k a b, cs0.get? k = some a → (cs.set i c').get? k = some b →
      a.current_collisions ⊆ b.current_collisions) ∧
    (∀ k, ((cs.set i c').get? k).isSome = (cs0.get? k).isSome) := by
  constructor
  · intro k a b h0 hb
    rw [List.get?_set] at hb
    by_cases hik : i = k
    · rw [if_pos hik] at hb
      subst hik
      rw [hci] at hb
      have hb2 : some c' = some b := hb
      injection hb2 with hb3
      rw [← hb3]
      exact subset_trans (hsub i a ci h0 hci) hcc
    · rw [if_neg hik] at hb
      exact hsub k a b h0 hb
  · intro k
    rw [set_isSome]
    exact hsome k

/-- Python `_handle_collision_events` preserves the same invariant: it only ever
inserts into a `current_collisions` set. -/
theorem handle_preserves_inv (cs0 cs : List Collider) (i j : ℕ)
    (hsub : ∀ k a b, cs0.get? k = some a → cs.get? k = some b →
      a.current_collisions ⊆ b.current_collisions)
    (hsome : ∀ k, (cs.get? k).isSome = (cs0.get? k).isSome) :
    (∀ k a b, cs0.get? k = some a → (handle_collision_events cs i j).1.get? k = some b →
      a.current_collisions ⊆ b.current_collisions) ∧
    (∀ k, ((handle_collision_events cs i j).1.get? k).isSome = (cs0.get? k).isSome) := by
  unfold handle_collision_events
  cases hci : cs.get? i with
  | none => exact ⟨hsub, hsome⟩
  | some c =>
    dsimp only
    split_ifs with hmem
    · exact ⟨hsub, hsome⟩
    · exact set_preserves_inv cs0 cs i c
        { c with current_collisions := insert j c.current_collisions } hci
        (Finset.subset_insert j c.current_collisions) hsub hsome

/-- When `_handle_collision_events` fires an `enter` event, it is for this
very pair, and the other collider's id was not yet recorded. -/
theorem handle_events_enter (cs : List Collider) (i j i' j' : ℕ)
    (he : (handle_collision_events cs i j).2 = CollisionEvent.enter i' j') :
    i' = i ∧ j' = j ∧ ∃ c, cs.get? i = some c ∧ j ∉ c.current_collisions := by
  unfold handle_collision_events at he
  cases hci : cs.get? i with
  | none =>
    rw [hci] at he
    exact CollisionEvent.noConfusion he
  | some c =>
    rw [hci] at he
    dsimp only at he
    split_ifs at he with hmem <;> dsimp only at he
    all_goals first
      | exact CollisionEvent.noConfusion he
      | (injection he with h1 h2
         exact ⟨h1.symm, h2.symm, c, rfl, hmem⟩)

/-- One step of the resolution loop preserves the event/collision-set
invariant: sets only grow relative to the base list `cs0`, entries neither
appear nor disappear, and every `enter i j` event fired so far was for an
id `j` not recorded in `cs0`'s collider `i`. -/
theorem resolveStep_inv (cs0 cs : List Collider) (evs : List CollisionEvent)
    (p : ℕ × ℕ × CollisionData)
    (hsub : ∀ k a b, cs0.get? k = some a → cs.get? k = some b →
      a.current_collisions ⊆ b.current_collisions)
    (hsome : ∀ k, (cs.get? k).isSome = (cs0.get? k).isSome)
    (hev : ∀ i j, CollisionEvent.enter i j ∈ evs → ∀ a, cs0.get? i = some a →
      j ∉ a.current_collisions) :
    (∀ k a b, cs0.get? k = some a → (resolveStep (cs, evs) p).1.get? k = some b →
      a.current_collisions ⊆ b.current_collisions) ∧
    (∀ k, ((resolveStep (cs, evs) p).1.get? k).isSome = (cs0.get? k).isSome) ∧
    (∀ i j, CollisionEvent.enter i j ∈ (resolveStep (cs, evs) p).2 →
      ∀ a, cs0.get? i = some a → j ∉ a.current_collisions) := by
  unfold resolveStep
  cases hci : cs.get? p.1 with
  | none => exact ⟨hsub, hsome, hev⟩
  | some ci =>
    cases hcj : cs.get? p.2.1 with
    | none => exact ⟨hsub, hsome, hev⟩
    | some cj =>
      dsimp only
      have hs1 := set_preserves_inv cs0 cs p.1 ci
        { ci with physics_body := (CollisionSystem.resolve_collision ci cj p.2.2).1 }
        hci (Finset.Subset.refl _) hsub hsome
      have hcj1some : (((cs.set p.1 { ci with physics_body :=
          (CollisionSystem.resolve_collision ci cj p.2.2).1 }).get? p.2.1).isSome) =
          true := by
        rw [set_isSome, hcj]
        rfl
      rcases Option.isSome_iff_exists.mp hcj1some with ⟨cj1, hcj1⟩
      have hccmap := get?_set_map_eq Collider.current_collisions cs p.1 ci
        { ci with physics_body := (CollisionSystem.resolve_collision ci cj p.2.2).1 }
        hci rfl p.2.1
      rw [hcj1, hcj] at hccmap
      simp only [Option.map_some', Option.some.injEq] at hccmap
      have hs2 := set_preserves_inv cs0 _ p.2.1 cj1
        { cj with physics_body := (CollisionSystem.resolve_collision ci cj p.2.2).2 }
        hcj1 (by rw [hccmap]) hs1.1 hs1.2
      have hs3 := handle_preserves_inv cs0 _ p.1 p.2.1 hs2.1 hs2.2
      have hs4 := handle_preserves_inv cs0 _ p.2.1 p.1 hs3.1 hs3.2
      refine ⟨hs4.1, hs4.2, ?_⟩
      intro i j hin a h0
      rw [List.mem_append] at hin
      rcases hin with hin | hin
      · exact hev i j hin a h0
      · simp only [List.mem_cons, List.not_mem_nil, or_false] at hin
        rcases hin with hin | hin
        · rcases handle_events_enter _ _ _ _ _ hin.symm with ⟨hi, hj, c2, hc2, hnot⟩
          subst hi
          subst hj
          exact fun hmem => hnot (hs2.1 _ a c2 h0 hc2 hmem)
        · rcases handle_events_enter _ _ _ _ _ hin.symm with ⟨hi, hj, c2, hc2, hnot⟩
          subst hi
          subst hj
          exact fun hmem => hnot (hs3.1 _ a c2 h0 hc2 hmem)

/-- The whole resolution loop preserves the event/collision-set
invariant. -/
theorem foldResolve_inv (cs0 : List Collider) (pairs : List (ℕ × ℕ × CollisionData)) :
    ∀ (cs : List Collider) (evs : List CollisionEvent),
    (∀ k a b, cs0.get? k = some a → cs.get? k = some b →
      a.current_collisions ⊆ b.current_collisions) →
    (∀ k, (cs.get? k).isSome = (cs0.get? k).isSome) →
    (∀ i j, CollisionEvent.enter i j ∈ evs → ∀ a, cs0.get? i = some a →
      j ∉ a.current_collisions) →
    (∀ k a b, cs0.get? k = some a → (pairs.foldl resolveStep (cs, evs)).1.get? k =
        some b → a.current_collisions ⊆ b.current_collisions) ∧
    (∀ k, ((pairs.foldl resolveStep (cs, evs)).1.get? k).isSome =
      (cs0.get? k).isSome) ∧
    (∀ i j, CollisionEvent.enter i j ∈ (pairs.foldl resolveStep (cs, evs)).2 →
      ∀ a, cs0.get? i = some a → j ∉ a.current_collisions) := by
  induction pairs with
  | nil => intro cs evs hsub hsome hev; exact ⟨hsub, hsome, hev⟩
  | cons p ps ih =>
    intro cs evs hsub hsome hev
    rw [List.foldl_cons]
    have hstep := resolveStep_inv cs0 cs evs p hsub hsome hev
    exact ih (resolveStep (cs, evs) p).1 (resolveStep (cs, evs) p).2
      hstep.1 hstep.2.1 hstep.2.2

/-- Claim C10: a collider's `current_collisions` set only ever grows under
`CollisionSystem.update` — no update removes an identity once recorded —
and consequently, for any identity `j` already recorded on collider `i`
before the tick, the tick can fire only `stay` for that pair, never a
second `enter`. -/
theorem C10_current_collisions_monotone (sys : CollisionSystem) (dt : ℚ) (i : ℕ)
    (c c' : Collider) (hc : sys.colliders.get? i = some c)
    (hc' : ((sys.update dt).1).colliders.get? i = some c') :
    c.current_collisions ⊆ c'.current_collisions ∧
    ∀ j ∈ c.current_collisions, CollisionEvent.enter i j ∉ (sys.update dt).2 := by
  unfold CollisionSystem.update at hc' ⊢
  dsimp only at hc' ⊢
  have hccmap : ∀ k, (((sys.colliders.map (applyGravityPhase sys.gravity)).map
      (integratePhase dt sys.gravity)).get? k).map Collider.current_collisions =
      (sys.colliders.get? k).map Collider.current_collisions := by
    intro k
    rw [List.get?_map, List.get?_map]
    cases hck : sys.colliders.get? k with
    | none => rfl
    | some c0 =>
      simp only [Option.map_some', Option.some.injEq]
      rw [integratePhase_cc, applyGravityPhase_cc]
  have hsub0 : ∀ k a b, ((sys.colliders.map (applyGravityPhase sys.gravity)).map
      (integratePhase dt sys.gravity)).get? k = some a →
      ((sys.colliders.map (applyGravityPhase sys.gravity)).map
      (integratePhase dt sys.gravity)).get? k = some b →
      a.current_collisions ⊆ b.current_collisions := by
    intro k a b ha hb
    rw [ha] at hb
    injection hb with h
    exact h ▸ Finset.Subset.refl _
  have hev0 : ∀ i j, CollisionEvent.enter i j ∈ ([] : List CollisionEvent) →
      ∀ a, ((sys.colliders.map (applyGravityPhase sys.gravity)).map
      (integratePhase dt sys.gravity)).get? i = some a →
      j ∉ a.current_collisions :=
    fun _ _ h => absurd h (List.not_mem_nil _)
  have I := foldResolve_inv
    ((sys.colliders.map (applyGravityPhase sys.gravity)).map
      (integratePhase dt sys.gravity))
    (CollisionSystem.detectPairs
      { colliders := (sys.colliders.map (applyGravityPhase sys.gravity)).map
          (integratePhase dt sys.gravity)
        gravity := sys.gravity
        grid_size := sys.grid_size
        spatial_grid := sys.update_spatial_grid })
    ((sys.colliders.map (applyGravityPhase sys.gravity)).map
      (integratePhase dt sys.gravity))
    [] hsub0 (fun k => rfl) hev0
  have hmap := hccmap i
  rw [hc] at hmap
  rcases Option.map_eq_some'.mp hmap with ⟨a, haL, hacc⟩
  constructor
  · have hfin := I.1 i a c' haL hc'
    rw [hacc] at hfin
    exact hfin
  · intro j hj hin
    have hfin := I.2.2 i j hin a haL
    rw [hacc] at hfin
    exact hfin hj

/-- Witness for C10: one tick of the single-collider system keeps the
recorded set, and fires no `enter` for the already-recorded identity. -/
theorem C10_witness :
    markedCollider.current_collisions ⊆ markedCollider.current_collisions ∧
    ∀ j ∈ markedCollider.current_collisions,
      CollisionEvent.enter 0 j ∉ (markedSystem.update 1).2 :=
  C10_current_collisions_monotone markedSystem 1 0 markedCollider markedCollider rfl
    (of_decide_eq_true (by with_unfolding_all rfl))

end Game
